import Mathlib

set_option maxRecDepth 16384

/-!
Verification of the Ultron-Pinterest-Scrapper repository against its
natural-language specification.

The development shallowly embeds the Python source (src/app.py,
src/app_filters.py, src/pinterest_scraper.py, src/pinterest_scraper_rich.py)
into Lean.  Python/JSON values are modelled by the inductive type `PyVal`;
the Selenium browser session, the JSON parser of the standard library and
the CDP body fetches are modelled as oracles collected in a `Driver`
record, each returning `Except Exc _` so that raised exceptions are
explicit.  Pure helper functions of the source (compact-number parsing,
JSON substructure search, the enrichment merge, the listing-crawler loop,
deduplication) are translated function by function.

Conventions:
* Python truthiness is `truthy`, `a or b` on values is `pyOr`,
  `str(...)` is `pyStr`.
* Python exceptions are the `Exc` type; `try/except SomeError` becomes a
  `match` on the `Except` value that converts exactly the caught
  constructors.
* A Python `dict` is an association list `Dct` with unique keys (JSON
  parsing produces unique keys); `d.get(k)` is `dctGet`, `k in d` is
  `dctHas`.
* The Python stack-based traversals (`find_first_pin_like_dict`,
  `_extract_closeup_from_json`) pop from the end of a Python list; the
  model keeps the stack reversed, with the top at the head, which yields
  the identical visit order.
-/

/-- Model of a Python/JSON value as produced by `json.loads` and passed
around inside the scraper.  JSON numbers are modelled as integers (the
fields the scraper reads are identifiers and counters). -/
inductive PyVal : Type where
  | none : PyVal
  | str (s : String) : PyVal
  | int (n : Int) : PyVal
  | bool (b : Bool) : PyVal
  | list (xs : List PyVal) : PyVal
  | dict (kvs : List (String × PyVal)) : PyVal

/-- Structural size of a `PyVal`, used as the termination measure of the
stack-based traversals of the source. -/
def pvSize : PyVal → Nat
  | .none | .str _ | .int _ | .bool _ => 1
  | .list xs => 1 + pvListSize xs
  | .dict kvs => 1 + pvDctSize kvs
where
  pvListSize : List PyVal → Nat
    | [] => 0
    | x :: xs => pvSize x + pvListSize xs
  pvDctSize : List (String × PyVal) → Nat
    | [] => 0
    | kv :: kvs => 1 + pvSize kv.2 + pvDctSize kvs

/-- Total size of a traversal stack. -/
def stackSize (l : List PyVal) : Nat := (l.map pvSize).sum

theorem pvSize_pos (v : PyVal) : 0 < pvSize v := by
  cases v <;> simp [pvSize]

theorem stackSize_cons (v : PyVal) (l : List PyVal) :
    stackSize (v :: l) = pvSize v + stackSize l := by
  simp [stackSize]

theorem stackSize_append (a b : List PyVal) :
    stackSize (a ++ b) = stackSize a + stackSize b := by
  simp [stackSize]

theorem stackSize_reverse (a : List PyVal) : stackSize a.reverse = stackSize a := by
  simp [stackSize, List.sum_reverse]

theorem stackSize_vals_lt (kvs : List (String × PyVal)) :
    stackSize (kvs.map Prod.snd) < pvSize (.dict kvs) := by
  induction kvs with
  | nil => simp [stackSize, pvSize, pvSize.pvDctSize]
  | cons kv kvs ih =>
    simp only [List.map_cons, stackSize_cons, pvSize, pvSize.pvDctSize] at *
    omega

theorem stackSize_list_lt (xs : List PyVal) : stackSize xs < pvSize (.list xs) := by
  induction xs with
  | nil => simp [stackSize, pvSize, pvSize.pvListSize]
  | cons x xs ih =>
    simp only [stackSize_cons, pvSize, pvSize.pvListSize] at *
    omega

theorem stackSize_lt_cons (v : PyVal) (l : List PyVal) :
    stackSize l < stackSize (v :: l) := by
  have := pvSize_pos v
  simp only [stackSize_cons]
  omega

theorem dropWhile_length_le {a : Type} (p : a → Bool) (l : List a) :
    (l.dropWhile p).length ≤ l.length := by
  induction l with
  | nil => simp [List.dropWhile]
  | cons x l ih =>
    simp only [List.dropWhile]
    cases p x <;> simp <;> omega

/-- Python truthiness (`bool(v)`): empty string, zero, `None`, empty
containers and `False` are falsy, everything else is truthy. -/
def truthy : PyVal → Bool
  | .none => false
  | .str s => s != ""
  | .int n => n != 0
  | .bool b => b
  | .list xs => !xs.isEmpty
  | .dict kvs => !kvs.isEmpty

/-- A single ASCII apostrophe, used by the Python `repr` of strings. -/
def pyQuote : String := String.singleton (Char.ofNat 39)

/-- Python `repr(v)`.  Containers render in the Python notation; this is
only ever observed through `pyStr` on non-string scalars in the source
paths under verification, so the container rendering is a faithful-enough
approximation of CPython output (strings always use the single quote). -/
def pyRepr : PyVal → String
  | .none => "None"
  | .str s => pyQuote ++ s ++ pyQuote
  | .int n => toString n
  | .bool true => "True"
  | .bool false => "False"
  | .list xs => "[" ++ String.intercalate ", " (pyReprList xs) ++ "]"
  | .dict kvs => "\x7b" ++ String.intercalate ", " (pyReprDct kvs) ++ "\x7d"
where
  pyReprList : List PyVal → List String
    | [] => []
    | x :: xs => pyRepr x :: pyReprList xs
  pyReprDct : List (String × PyVal) → List String
    | [] => []
    | kv :: kvs => (pyQuote ++ kv.1 ++ pyQuote ++ ": " ++ pyRepr kv.2) :: pyReprDct kvs

/-- Python `str(v)`: identity on strings, `repr` otherwise. -/
def pyStr : PyVal → String
  | .str s => s
  | v => pyRepr v

/-- Python `a or b` between values: `a` if truthy, else `b`. -/
def pyOr (a b : PyVal) : PyVal := if truthy a then a else b

/-- Python `a or b` between strings. -/
def strOr (a b : String) : String := if a ≠ "" then a else b

/-- Python `str(v or s)` where `v` is a value and `s` a string local. -/
def strOfOr (v : PyVal) (s : String) : String := if truthy v then pyStr v else s

/-- Python `v == "lit"` for a value and a string literal. -/
def isStrEq (v : PyVal) (s : String) : Bool :=
  match v with
  | .str t => t == s
  | _ => false

/-- A Python `dict` as an association list (keys unique in all payloads
produced by `json.loads`). -/
abbrev Dct := List (String × PyVal)

/-- Lookup returning the stored value when the key is present. -/
def dctFind (kvs : Dct) (k : String) : Option PyVal :=
  (kvs.find? fun kv => kv.1 == k).map (·.2)

/-- Python `d.get(k)`: the stored value, or `None` when absent. -/
def dctGet (kvs : Dct) (k : String) : PyVal := (dctFind kvs k).getD .none

/-- Python `d.get(k, dflt)`. -/
def dctGetD (kvs : Dct) (k : String) (dflt : PyVal) : PyVal :=
  (dctFind kvs k).getD dflt

/-- Python `k in d`. -/
def dctHas (kvs : Dct) (k : String) : Bool := (dctFind kvs k).isSome

/-- Model of the Python exceptions distinguished by the source: the
Selenium `NoSuchElementException`, `StaleElementReferenceException`,
the `OverflowError` of `int(float(...))` on overflow, and a catch-all
for every other raised exception. -/
inductive Exc : Type where
  | noSuchElement : Exc
  | stale : Exc
  | overflow : Exc
  | err : Exc
  deriving DecidableEq, Repr

/-- The ASCII whitespace class of the regex `\s` and of `str.strip()`. -/
def wsChar (c : Char) : Bool :=
  c == ' ' || c == '\t' || c == '\n' || c == '\r' || c == '\x0b' || c == '\x0c'

/-- Python `s.strip()`: drop whitespace from both ends. -/
def pyStrip (s : String) : String :=
  ⟨((s.data.dropWhile wsChar).reverse.dropWhile wsChar).reverse⟩

/-- Python `s.strip(c)` for a single strip character. -/
def pyStripChar (s : String) (c : Char) : String :=
  ⟨((s.data.dropWhile (· == c)).reverse.dropWhile (· == c)).reverse⟩

/-- Python `s.lower()` (structurally recursive so that it evaluates on
concrete inputs; ASCII-faithful like the inputs in the source paths). -/
def pyLower (s : String) : String := ⟨s.data.map Char.toLower⟩

/-- Python `s.startswith(pre)` (structurally recursive so that it
evaluates on concrete inputs). -/
def pyStartsWith (s pre : String) : Bool := pre.data.isPrefixOf s.data

/-- Membership of a character list as a contiguous infix. -/
def listInfix (n : List Char) : List Char → Bool
  | [] => n.isEmpty
  | c :: cs => n.isPrefixOf (c :: cs) || listInfix n cs

/-- Python `needle in hay` on strings. -/
def isSubstr (needle hay : String) : Bool := listInfix needle.data hay.data

/-- Python `s.count(c)` for a single character. -/
def countChar (s : String) (c : Char) : Nat := s.data.count c

/-- Python `s.isdigit()` (restricted to ASCII digits, the only digits the
scraper meets in the modelled paths). -/
def pyIsdigit (s : String) : Bool := s != "" && s.data.all Char.isDigit

/-- The character class `[\d,.]` of `NUM_RE` in app.py. -/
def numClassChar (c : Char) : Bool := c.isDigit || c == ',' || c == '.'

/-- The suffix class `[kKmMbB]` of `NUM_RE`. -/
def sufClassChar (c : Char) : Bool :=
  c == 'k' || c == 'K' || c == 'm' || c == 'M' || c == 'b' || c == 'B'

/-- Model of `NUM_RE.search(s)` with `NUM_RE = ([\d,.]+)\s*([kKmMbB]?)`:
the leftmost match position is the first character in the numeric class,
the first group is the maximal run from there, then optional whitespace
and an optional one-letter magnitude suffix.  The pattern needs no
backtracking because the literal classes are disjoint. -/
def numSearch : List Char → Option (List Char × Option Char)
  | [] => Option.none
  | c :: cs =>
    if numClassChar c then
      let run := (c :: cs).takeWhile numClassChar
      let rest := ((c :: cs).dropWhile numClassChar).dropWhile wsChar
      let suf := match rest with
        | d :: _ => if sufClassChar d then some d else Option.none
        | [] => Option.none
      some (run, suf)
    else numSearch cs

/-- Decimal value of a digit list. -/
def digitsVal : List Char → Nat
  | [] => 0
  | c :: cs => (c.toNat - 48) * 10 ^ cs.length + digitsVal cs

/-- Model of Python `float(cs)` on a string drawn from digits and dots
(the comma-free regex run): defined when there is at least one digit and
at most one dot; the result `(n, k)` denotes the exact non-negative
rational `n / 10^k`.  CPython rounds to the nearest IEEE double; the
claims under verification only observe values where rounding does not
change `int(...)`, so exact arithmetic is used, except that overflow
beyond the double range is modelled by comparison with `dblMaxNat` at
the use site. -/
def floatRun (cs : List Char) : Option (Nat × Nat) :=
  if (∀ c ∈ cs, c.isDigit ∨ c = '.') ∧ (∃ c ∈ cs, c.isDigit) ∧ List.count '.' cs ≤ 1 then
    let ip := cs.takeWhile (· ≠ '.')
    let fp := (cs.dropWhile (· ≠ '.')).drop 1
    some (digitsVal ip * 10 ^ fp.length + digitsVal fp, fp.length)
  else Option.none

/-- The largest finite IEEE double, `(2 - 2^-52) * 2^1023`; it is an
integer, so a natural number represents it exactly. -/
def dblMaxNat : Nat := 2 ^ 1024 - 2 ^ 971

/-- The multiplier table `{"k": 1e3, "m": 1e6, "b": 1e9}.get(suf.lower(), 1)`. -/
def sufMul (suf : Option Char) : Nat :=
  match suf with
  | some c =>
    if c.toLower == 'k' then 1000
    else if c.toLower == 'm' then 1000000
    else if c.toLower == 'b' then 1000000000
    else 1
  | Option.none => 1

/-- `parse_compact_number` of app.py (same text in app_filters.py):
strip, search `NUM_RE`, drop commas, `float(...)` (a `ValueError` is
caught and yields the empty string), multiply, `int(...)`, `str(...)`.
The `int(...)` call sits outside the `try`, so a value beyond the double
range (`float` returned `inf`, or the multiplication overflowed) raises
`OverflowError`; the value `n/10^k * mul` is non-negative, so `int`
truncation is the floor `n * mul / 10^k` in natural division, and the
overflow test `n/10^k * mul > dblMaxNat` is the cross-multiplied
comparison. -/
def parse_compact_number (s : String) : Except Exc String :=
  let t := pyStrip s
  match numSearch t.data with
  | Option.none => .ok ""
  | some (run, suf) =>
    match floatRun (run.filter (· ≠ ',')) with
    | Option.none => .ok ""
    | some nk =>
      let mul := sufMul suf
      if nk.1 * mul ≤ dblMaxNat * 10 ^ nk.2 then
        .ok (toString (nk.1 * mul / 10 ^ nk.2))
      else .error .overflow

/-- Model of `PIN_ID_RE.search(url)` with `PIN_ID_RE = /pin/(\d+)/?`:
scan for the leftmost occurrence of `/pin/` followed by at least one
digit and return the maximal digit run. -/
def pinIdScan : List Char → Option (List Char)
  | [] => Option.none
  | cs@(_ :: rest) =>
    if "/pin/".data.isPrefixOf cs then
      let ds := (cs.drop 5).takeWhile Char.isDigit
      if ds ≠ [] then some ds else pinIdScan rest
    else pinIdScan rest

/-- `parse_pin_id` of app.py: the first group of the match, or empty. -/
def parse_pin_id (url : String) : String :=
  match pinIdScan url.data with
  | some ds => ds.asString
  | Option.none => ""

instance {e a : Type} [DecidableEq e] [DecidableEq a] : DecidableEq (Except e a) := fun x y =>
  match x, y with
  | .ok u, .ok v =>
    if h : u = v then isTrue (by rw [h]) else isFalse (by simp [h])
  | .error u, .error v =>
    if h : u = v then isTrue (by rw [h]) else isFalse (by simp [h])
  | .ok _, .error _ => isFalse (fun hc => Except.noConfusion hc)
  | .error _, .ok _ => isFalse (fun hc => Except.noConfusion hc)


/-- The pin-shape predicate of `find_first_pin_like_dict`:
`"id" in cur and (("images" in cur) or ("grid_title" in cur) or ("title" in cur))`. -/
def pinLike (kvs : Dct) : Bool :=
  dctHas kvs "id" && (dctHas kvs "images" || dctHas kvs "grid_title" || dctHas kvs "title")

/-- The hint test `pin_id_hint and str(cur.get("id")) == str(pin_id_hint)`:
a `None` or empty hint is falsy and never matches. -/
def hintMatch (hint : Option String) (kvs : Dct) : Bool :=
  match hint with
  | some h => h != "" && pyStr (dctGet kvs "id") == h
  | Option.none => false

/-- The stack loop of `find_first_pin_like_dict` (app.py, app_filters.py,
pinterest_scraper_rich.py — the three copies are semantically identical;
`fallback = fallback or cur` in the rich variant coincides with
`if fallback is None` because a matched dict is never empty).  The head
of the list is the top of the Python stack. -/
def ffplLoop (hint : Option String) : List PyVal → Option Dct → Option Dct
  | [], fb => fb
  | cur :: rest, fb =>
    match cur with
    | .dict kvs =>
      if pinLike kvs && hintMatch hint kvs then some kvs
      else
        let fb2 := if pinLike kvs && fb.isNone then some kvs else fb
        ffplLoop hint ((kvs.map Prod.snd).reverse ++ rest) fb2
    | .list xs => ffplLoop hint (xs.reverse ++ rest) fb
    | _ => ffplLoop hint rest fb
termination_by l _ => stackSize l
decreasing_by
  · have h1 := stackSize_vals_lt kvs
    simp only [stackSize_cons, stackSize_append, stackSize_reverse]
    omega
  · have h1 := stackSize_list_lt xs
    simp only [stackSize_cons, stackSize_append, stackSize_reverse]
    omega
  · exact stackSize_lt_cons _ _

/-- `find_first_pin_like_dict(obj, pin_id_hint)`. -/
def find_first_pin_like_dict (obj : PyVal) (hint : Option String) : Option Dct :=
  ffplLoop hint [obj] Option.none

/-- The chained lookup
`cur.get("response", {}).get("data", {}).get("v3GetPinQuery", {}).get("data")`
of `_extract_closeup_from_json`; a `.get` on a non-dict raises
`AttributeError`, which the source catches and treats as no result. -/
def closeupChain (kvs : Dct) : Option Dct :=
  match dctGetD kvs "response" (.dict []) with
  | .dict r1 =>
    match dctGetD r1 "data" (.dict []) with
    | .dict r2 =>
      match dctGetD r2 "v3GetPinQuery" (.dict []) with
      | .dict r3 =>
        match dctFind r3 "data" with
        | some (.dict d) => some d
        | _ => Option.none
      | _ => Option.none
    | _ => Option.none
  | _ => Option.none

/-- The detail-query test applied to one dict: a `requestParameters`
sub-dict whose `name` equals `"CloseupDetailQuery"`, answered by
`closeupChain`.  It covers both the direct check (where a missing key
defaults to `{}`, whose `.get("name")` is `None`) and the in-walk check
(explicit `isinstance` of the sub-value). -/
def closeupHere (kvs : Dct) : Option Dct :=
  match dctFind kvs "requestParameters" with
  | some (.dict rp) =>
    if isStrEq (dctGetD rp "name" .none) "CloseupDetailQuery" then closeupChain kvs
    else Option.none
  | _ => Option.none

/-- The stack walk of `_extract_closeup_from_json`. -/
def closeupWalk : List PyVal → Option Dct
  | [] => Option.none
  | cur :: rest =>
    match cur with
    | .dict kvs =>
      match closeupHere kvs with
      | some d => some d
      | Option.none => closeupWalk ((kvs.map Prod.snd).reverse ++ rest)
    | .list xs => closeupWalk (xs.reverse ++ rest)
    | _ => closeupWalk rest
termination_by l => stackSize l
decreasing_by
  · have h1 := stackSize_vals_lt kvs
    simp only [stackSize_cons, stackSize_append, stackSize_reverse]
    omega
  · have h1 := stackSize_list_lt xs
    simp only [stackSize_cons, stackSize_append, stackSize_reverse]
    omega
  · exact stackSize_lt_cons _ _

/-- `_extract_closeup_from_json(obj)` (leading underscore dropped):
first the direct shape test on the root, then the exhaustive walk. -/
def extract_closeup_from_json (obj : PyVal) : Option Dct :=
  let direct := match obj with
    | .dict kvs => closeupHere kvs
    | _ => Option.none
  match direct with
  | some d => some d
  | Option.none => closeupWalk [obj]

/-- Attributes of the first rendered `img` element, as read through
`safe_get_attr` (which catches every exception and defaults to the
empty string), pre-materialised at the collaborator boundary. -/
structure ImgAttrs where
  src : String
  dataSrc : String
  dataLazy : String
  srcset : String
  width : String
  height : String

/-- The browser-session/parser collaborator, modelled as a record of
deterministic oracles.  Each field stands for one primitive call of the
source; a `Nat` argument is the retry-attempt index used by
`retry_stale`.  Element reads inside a wrapped block are
pre-materialised into the list the block iterates over; a read failure
inside such a block is modelled as the oracle returning `.error`. -/
structure Driver where
  /-- `driver.get(url)` — navigation, unprotected in the source. -/
  nav : String → Except Exc Unit
  /-- The `WebDriverWait(...).until(...)` call (always wrapped). -/
  waitAny : Except Exc Unit
  /-- `find_element("script#__PWS_DATA__").get_attribute("innerHTML")`. -/
  pwsInner : Except Exc String
  /-- `json.loads` — the library parser; failure is a `ValueError`. -/
  jloads : String → Except Unit PyVal
  /-- `driver.get_log("performance")`. -/
  getLog : Except Exc (List PyVal)
  /-- `_cdp_get_body_text(driver, request_id)` minus its final strip:
  fetch plus base64/compression decoding at the CDP boundary. -/
  bodyText : PyVal → Except Exc String
  /-- `driver.find_elements(By.TAG_NAME, "script")` with the per-element
  `(innerHTML, id)` reads (individually wrapped in the source). -/
  scripts : Except Exc (List (Except Exc (String × String)))
  /-- `driver.page_source`, unprotected in `hunt_json_in_scripts`. -/
  pageSource : Except Exc String
  /-- `find_element("meta[...=name]").get_attribute("content")`;
  the name and the property/name flag select the element. -/
  metaContent : String → Bool → Except Exc String
  /-- `find_element(css).text` for `get_text_safe`. -/
  cssText : String → Nat → Except Exc String
  /-- `find_element(css).get_attribute(attr)` for `attr_safe`. -/
  cssAttr : String → String → Nat → Except Exc String
  /-- the element texts matched by the XPath of `find_text_contains`. -/
  xpathTexts : String → Except Exc (List String)
  /-- `find_element(By.CSS_SELECTOR, "img")` with its attributes. -/
  findImg : Nat → Except Exc ImgAttrs
  /-- the `(href, text)` pairs of the pinner-fallback anchor query. -/
  pinnerAnchors : Nat → Except Exc (List (String × String))
  /-- the `(href, text)` pairs of the board-fallback anchor query. -/
  boardAnchors : Nat → Except Exc (List (String × String))
  /-- the `(rel, href)` pairs of the `a[target='_blank']` query. -/
  targetBlankAnchors : Nat → Except Exc (List (String × String))
  /-- the `datetime` attributes of the `time` elements. -/
  timeDatetimes : Except Exc (List String)

/-- `retry_stale(fn)` of app.py: three calls catching only
`StaleElementReferenceException`, then one final unprotected call. -/
def retry_stale {a : Type} (fn : Nat → Except Exc a) : Except Exc a :=
  retryGo 3 0
where
  retryGo : Nat → Nat → Except Exc a
    | 0, i => fn i
    | n + 1, i =>
      match fn i with
      | .error .stale => retryGo n (i + 1)
      | r => r

/-- `get_text_safe(driver, css)`: catches only `NoSuchElementException`
(yielding the empty string); the text is stripped. -/
def get_text_safe (drv : Driver) (css : String) (i : Nat) : Except Exc String :=
  match drv.cssText css i with
  | .error .noSuchElement => .ok ""
  | .error e => .error e
  | .ok s => .ok (pyStrip s)

/-- `attr_safe(driver, css, attr)`: catches only `NoSuchElementException`;
a `None` attribute defaults to the empty string at the oracle boundary. -/
def attr_safe (drv : Driver) (css attr : String) (i : Nat) : Except Exc String :=
  match drv.cssAttr css attr i with
  | .error .noSuchElement => .ok ""
  | .error e => .error e
  | .ok s => .ok s

/-- `text_from_meta(driver, name_or_prop, is_prop)`. -/
def text_from_meta (drv : Driver) (name : String) (isProp : Bool) : Except Exc String :=
  match drv.metaContent name isProp with
  | .error .noSuchElement => .ok ""
  | .error e => .error e
  | .ok s => .ok s

/-- `find_text_contains(driver, word)`: entirely wrapped, so a failing
query yields the empty string; otherwise the first non-empty stripped
text containing the lowercased word. -/
def find_text_contains (drv : Driver) (word : String) : String :=
  match drv.xpathTexts (pyLower word) with
  | .error _ => ""
  | .ok texts => ftcScan (pyLower word) texts
where
  ftcScan (wordLow : String) : List String → String
    | [] => ""
    | t :: ts =>
      let t := pyStrip t
      if t != "" && isSubstr wordLow (pyLower t) then t else ftcScan wordLow ts

/-- Everything before the first occurrence of a separator character:
the Python idiom `s.split(sep)[0]` (structurally recursive so that it
evaluates on concrete inputs). -/
def takeUntilCh (sep : Char) : List Char → List Char
  | [] => []
  | c :: cs => if c = sep then [] else c :: takeUntilCh sep cs

/-- `s.split(sep)[0]` for a one-character separator. -/
def splitHead (sep : Char) (s : String) : String :=
  ⟨takeUntilCh sep s.data⟩

/-- `extract_image_src(img_el)`. -/
def extract_image_src (img : ImgAttrs) : String :=
  eisScan [img.src, img.dataSrc, img.dataLazy, img.srcset]
where
  eisScan : List String → String
    | [] => ""
    | c :: cs =>
      if c = "" then eisScan cs
      else if isSubstr " " c && isSubstr "http" c then
        splitHead (Char.ofNat 32) (pyStrip (splitHead (Char.ofNat 44) c))
      else c

/-- The `entry.get("message", "{}")` step of `hunt_json_in_cdp_logs`:
a non-dict entry or a non-string message value raises inside the
`try` and the entry contributes nothing. -/
def cdpMsgStr (entry : PyVal) : Option String :=
  match entry with
  | .dict kvs =>
    match dctGetD kvs "message" (.str "\x7b\x7d") with
    | .str s => some s
    | _ => Option.none
  | _ => Option.none

/-- The classification tail of one `hunt_json_in_cdp_logs` iteration on a
parsed body: prefer the detail-query payload; otherwise the generic
pin-like candidate, returned only when the hint is empty or the
candidate identifier string-equals it. -/
def huntClassify (pin_id : String) (data : PyVal) : Option Dct :=
  match extract_closeup_from_json data with
  | some c => some c
  | Option.none =>
    match find_first_pin_like_dict data (some pin_id) with
    | some cand =>
      if pin_id == "" || pyStr (dctGet cand "id") == pin_id then some cand else Option.none
    | Option.none => Option.none

/-- The fetch/parse tail of one `hunt_json_in_cdp_logs` iteration, after
`params` and `response` have been bound: mime check, request-id check,
body fetch, cheap JSON-delimiter rejection, parse, classification.  The
body fetch and the parse are inside the `try`, so their failures skip
the entry; a non-string `mimeType` raises at `.lower()` outside the
`try`. -/
def huntBody (drv : Driver) (pin_id : String) (pkvs rkvs : Dct) : Except Exc (Option Dct) :=
  match pyOr (dctGet rkvs "mimeType") (.str "") with
  | .str mimeRaw =>
    if isSubstr "json" (pyLower mimeRaw) then
      let reqId := dctGet pkvs "requestId"
      if truthy reqId then
        match drv.bodyText reqId with
        | .error _ => .ok Option.none
        | .ok raw =>
          let txt := pyStrip raw
          if pyStartsWith txt "\x7b" || pyStartsWith txt "[" then
            match drv.jloads txt with
            | .error _ => .ok Option.none
            | .ok data => .ok (huntClassify pin_id data)
          else .ok Option.none
      else .ok Option.none
    else .ok Option.none
  | _ => .error .err

/-- One iteration of the `hunt_json_in_cdp_logs` loop over a log entry.
Failures of `json.loads` on the message, of the body fetch, of the
body parse, and non-JSON bodies are all caught (`continue`); but the
accesses `m.get("method")`, `params.get("response")` and
`res.get("mimeType").lower()` sit outside the `try`, so a malformed
(non-dict / non-string) shape at those points raises. -/
def huntEntry (drv : Driver) (pin_id : String) (entry : PyVal) : Except Exc (Option Dct) :=
  match cdpMsgStr entry with
  | Option.none => .ok Option.none
  | some s =>
    match drv.jloads s with
    | .error _ => .ok Option.none
    | .ok msg =>
      match (match msg with
             | .dict kvs => some (dctGetD kvs "message" (.dict []))
             | _ => Option.none) with
      | Option.none => .ok Option.none
      | some mv =>
        match mv with
        | .dict mkvs =>
          if isStrEq (dctGet mkvs "method") "Network.responseReceived" then
            match dctGetD mkvs "params" (.dict []) with
            | .dict pkvs =>
              match dctGetD pkvs "response" (.dict []) with
              | .dict rkvs => huntBody drv pin_id pkvs rkvs
              | _ => .error .err
            | _ => .error .err
          else .ok Option.none
        | _ => .error .err

/-- The `for entry in reversed(logs[-600:])` loop body sequencing. -/
def huntEntries (drv : Driver) (pin_id : String) : List PyVal → Except Exc (Option Dct)
  | [] => .ok Option.none
  | e :: es =>
    match huntEntry drv pin_id e with
    | .error ex => .error ex
    | .ok (some d) => .ok (some d)
    | .ok Option.none => huntEntries drv pin_id es

/-- `reversed(logs[-600:])`: the most recent 600 entries, newest first. -/
def cdpWindow (logs : List PyVal) : List PyVal :=
  (logs.drop (logs.length - 600)).reverse

/-- `hunt_json_in_cdp_logs(driver, pin_id)` of app.py/app_filters.py:
an unavailable log yields `None`. -/
def hunt_json_in_cdp_logs (drv : Driver) (pin_id : String) : Except Exc (Option Dct) :=
  match drv.getLog with
  | .error _ => .ok Option.none
  | .ok logs => huntEntries drv pin_id (cdpWindow logs)

/-- Model of `re.findall(r"\x7b.*?\x7d", t, re.DOTALL)`: each match runs
from an opening brace to the first closing brace after it; scanning
resumes after the match. -/
def findChunks : List Char → List String
  | [] => []
  | c :: cs =>
    if c = '\x7b' then
      match hr : cs.dropWhile (· ≠ '\x7d') with
      | _ :: after =>
        ((c :: cs.takeWhile (· ≠ '\x7d')) ++ ['\x7d']).asString :: findChunks after
      | [] => []
    else findChunks cs
termination_by l => l.length
decreasing_by
  · have h1 : (cs.dropWhile (· ≠ '\x7d')).length ≤ cs.length := dropWhile_length_le _ _
    rw [hr] at h1
    simp only [List.length_cons] at *
    omega
  · simp

/-- The key substrings gating a brute-force chunk parse attempt. -/
def chunkKeys : List String :=
  ["\"id\"", "\"images\"", "\"pinner\"", "\"board\"",
   "\"commentCount\"", "\"saveCount\"", "\"CloseupDetailQuery\""]

/-- Splits around the first case-insensitive occurrence of `pat`
(lowercase pattern), returning the part before it and the part after it. -/
def splitAtSub (pat : String) : List Char → Option (List Char × List Char)
  | [] => if pat.data.isEmpty then some ([], []) else Option.none
  | c :: cs =>
    if pat.data.isPrefixOf (((c :: cs).take pat.data.length).map Char.toLower) then
      some ([], (c :: cs).drop pat.data.length)
    else
      match splitAtSub pat cs with
      | some (b, a) => some (c :: b, a)
      | Option.none => Option.none

theorem splitAtSub_length (pat : String) (hp : pat.data ≠ []) :
    ∀ l b a, splitAtSub pat l = some (b, a) → a.length < l.length := by
  intro l
  induction l with
  | nil =>
    intro b a h
    simp [splitAtSub, hp] at h
  | cons c cs ih =>
    intro b a h
    simp only [splitAtSub] at h
    split at h
    · simp only [Option.some.injEq, Prod.mk.injEq] at h
      obtain ⟨-, rfl⟩ := h
      have : 1 ≤ pat.data.length := by
        cases hd : pat.data with
        | nil => exact absurd hd hp
        | cons _ _ => simp [hd]
      simp only [List.length_drop, List.length_cons]
      omega
    · rcases hsp : splitAtSub pat cs with _ | ⟨b2, a2⟩ <;> rw [hsp] at h
      · exact absurd h (by simp)
      · simp only [Option.some.injEq, Prod.mk.injEq] at h
        obtain ⟨-, rfl⟩ := h
        have := ih b2 a2 hsp
        simp only [List.length_cons]
        omega

/-- Model of
`re.finditer(r"<script[^>]*>(\x7b.*?\x7d)</script>", html, DOTALL|IGNORECASE)`:
find a `<script` tag, skip its attributes to `>`, require an opening
brace, take the group non-greedily up to the first `\x7d</script>`,
and continue after it. -/
def scriptBlocks (html : List Char) : List String :=
  match hs : splitAtSub "<script" html with
  | Option.none => []
  | some (_, afterTag) =>
    match hb : afterTag.dropWhile (· ≠ '>') with
    | '>' :: body =>
      match body with
      | '\x7b' :: inner =>
        match hi : splitAtSub ("\x7d</script>") inner with
        | some (grp, after) =>
          (('\x7b' :: grp) ++ ['\x7d']).asString :: scriptBlocks after
        | Option.none => []
      | _ => []
    | _ => []
termination_by html.length
decreasing_by
  have h1 : afterTag.length < html.length :=
    splitAtSub_length "<script" (by decide) html _ afterTag hs
  have h2 : (afterTag.dropWhile (· ≠ '>')).length ≤ afterTag.length :=
    dropWhile_length_le _ _
  rw [hb] at h2
  have h3 : after.length < inner.length :=
    splitAtSub_length ("\x7d</script>") (by decide) inner grp after hi
  simp only [List.length_cons] at h2
  omega

/-- The per-script-element body of `hunt_json_in_scripts`: a failed
attribute read yields `("", "")`; the `__PWS_DATA__` branch and the
`requestParameters` / brace-chunk branches accumulate parsed blobs. -/
def scriptBlobStep (drv : Driver) (acc : List PyVal) (sres : Except Exc (String × String)) :
    List PyVal :=
  let ts : String × String := match sres with | .ok p => p | .error _ => ("", "")
  let t := ts.1
  let sid := ts.2
  let acc1 := if sid == "__PWS_DATA__" && t != "" then
      (match drv.jloads t with | .ok v => acc ++ [v] | .error _ => acc)
    else acc
  if isSubstr "requestParameters" t && isSubstr "CloseupDetailQuery" t then
    match drv.jloads t with | .ok v => acc1 ++ [v] | .error _ => acc1
  else if isSubstr "\x7b\"" t && isSubstr "\x7d" t then
    (findChunks t.data).foldl (fun a chunk =>
      if chunkKeys.any (fun k => isSubstr k chunk) then
        match drv.jloads chunk with | .ok v => a ++ [v] | .error _ => a
      else a) acc1
  else acc1

/-- `hunt_json_in_scripts(driver)`: the script-element enumeration and
the `page_source` read are unprotected; everything per element is
wrapped. -/
def hunt_json_in_scripts (drv : Driver) : Except Exc (List PyVal) :=
  match drv.scripts with
  | .error e => .error e
  | .ok ss =>
    let blobs := ss.foldl (scriptBlobStep drv) []
    match drv.pageSource with
    | .error e => .error e
    | .ok html0 =>
      let html := strOr html0 ""
      if isSubstr "CloseupDetailQuery" html && isSubstr "requestParameters" html then
        .ok ((scriptBlocks html.data).foldl (fun a block =>
          if isSubstr "CloseupDetailQuery" block then
            match drv.jloads block with | .ok v => a ++ [v] | .error _ => a
          else a) blobs)
      else .ok blobs

/-- `for b in blobs: close = _extract_closeup_from_json(b); if dict: return`. -/
def firstCloseup : List PyVal → Option Dct
  | [] => Option.none
  | b :: bs =>
    match extract_closeup_from_json b with
    | some c => some c
    | Option.none => firstCloseup bs

/-- `get_closeup_data_from_any(driver)`: CDP logs first (with an empty
hint), then script/HTML blobs. -/
def get_closeup_data_from_any (drv : Driver) : Except Exc (Option Dct) :=
  match hunt_json_in_cdp_logs drv "" with
  | .error e => .error e
  | .ok (some c) => .ok (some c)
  | .ok Option.none =>
    match hunt_json_in_scripts drv with
    | .error e => .error e
    | .ok blobs => .ok (firstCloseup blobs)

/-- Python `v is None`. -/
def isNone : PyVal → Bool
  | .none => true
  | _ => false

/-- The working field-set of the Resolver Cascade: the fourteen string
locals of `scrape_pin_detail` that `enrich_from_closeup_data` receives
as the `fields` dict (`fields_now` in app.py). -/
structure Fields where
  title : String
  description : String
  created_at : String
  image_url : String
  image_width : String
  image_height : String
  save_count : String
  comment_count : String
  pinner_username : String
  pinner_fullname : String
  pinner_profile_url : String
  board_name : String
  board_url : String
  outbound_link : String
  deriving DecidableEq, Repr

/-- The all-empty working field-set. -/
def emptyFields : Fields := ⟨"", "", "", "", "", "", "", "", "", "", "", "", "", ""⟩

/-- enrich: the title / description / created_at block
(`if not out.get(k) and candidate: out[k] = candidate`). -/
def enrichTitleDescCreated (close : Dct) (f : Fields) : Fields :=
  let title := pyStr (pyOr (pyOr (dctGet close "gridTitle") (dctGet close "title")) (.str ""))
  let desc := pyStr (pyOr (pyOr (dctGet close "closeupUnifiedDescription")
    (dctGet close "description")) (.str ""))
  let created := pyStr (pyOr (dctGet close "createdAt") (.str ""))
  let f1 := if f.title = "" ∧ title ≠ "" then { f with title := title } else f
  let f2 := if f1.description = "" ∧ desc ≠ "" then { f1 with description := desc } else f1
  if f2.created_at = "" ∧ created ≠ "" then { f2 with created_at := created } else f2

/-- enrich: the aggregated counters block; a counter is written when the
field is empty and the sub-key is present with a non-`None` value. -/
def enrichAggCounts (close : Dct) (f : Fields) : Fields :=
  match pyOr (pyOr (dctGet close "aggregatedPinData") (dctGet close "aggregated_pin_data"))
      (.dict []) with
  | .dict agg =>
    let sc := dctGet agg "saveCount"
    let cc := dctGet agg "commentCount"
    let f1 := if f.save_count = "" ∧ ¬ isNone sc then { f with save_count := pyStr sc } else f
    if f1.comment_count = "" ∧ ¬ isNone cc then { f1 with comment_count := pyStr cc } else f1
  | _ => f

/-- enrich: the `repinCount` fallback for the save counter. -/
def enrichRepin (close : Dct) (f : Fields) : Fields :=
  if f.save_count = "" then
    let rc := dctGet close "repinCount"
    if ¬ isNone rc then { f with save_count := pyStr rc } else f
  else f

/-- enrich: the pinner block.  The profile URL is composed from the
(possibly just written) username when still empty. -/
def enrichPinner (close : Dct) (f : Fields) : Fields :=
  match pyOr (dctGet close "pinner") (.dict []) with
  | .dict pinner =>
    let f1 := if f.pinner_username = "" then
        { f with pinner_username := pyStr (pyOr (dctGet pinner "username") (.str "")) }
      else f
    let f2 := if f1.pinner_fullname = "" then
        { f1 with pinner_fullname := pyStr (pyOr (pyOr (dctGet pinner "full_name")
            (dctGet pinner "fullName")) (.str "")) }
      else f1
    if f2.pinner_profile_url = "" ∧ f2.pinner_username ≠ "" then
      { f2 with pinner_profile_url := "https://www.pinterest.com/" ++ f2.pinner_username ++ "/" }
    else f2
  | _ => f

/-- enrich: the board block.  `owner = board.get("owner") or \x7b\x7d` is
not `isinstance`-checked, so a truthy non-dict owner raises
`AttributeError` at `owner.get("username")`, which `enrich_from_closeup_data`
does not catch. -/
def enrichBoard (close : Dct) (f : Fields) : Except Exc Fields :=
  match pyOr (dctGet close "board") (.dict []) with
  | .dict board =>
    let f1 := if f.board_name = "" then
        { f with board_name := pyStr (pyOr (dctGet board "name") (.str "")) }
      else f
    if f1.board_url = "" then
      let cand := pyOr (dctGet board "url") (.str "")
      if truthy cand then .ok { f1 with board_url := pyStr cand }
      else
        match pyOr (dctGet board "owner") (.dict []) with
        | .dict owner =>
          let ownerUsr := pyOr (dctGet owner "username") (.str "")
          let slug := pyOr (dctGet board "slug") (.str "")
          if truthy ownerUsr ∧ truthy slug then
            .ok { f1 with board_url :=
              "https://www.pinterest.com/" ++ pyStr ownerUsr ++ "/" ++ pyStr slug ++ "/" }
          else .ok f1
        | _ => .error .err
    else .ok f1
  | _ => .ok f

/-- enrich: the outbound-link block. -/
def enrichOutbound (close : Dct) (f : Fields) : Fields :=
  if f.outbound_link = "" then
    { f with outbound_link := pyStr (pyOr (pyOr (dctGet close "link")
        (dctGet close "dominant_link")) (.str "")) }
  else f

/-- The size-tier preference order of every image extraction. -/
def sizeKeys : List String := ["orig", "564x", "474x", "236x"]

/-- One present-tier body of the enrich image loop: overwrite
`image_url` with `str(d.get("url") or out.get("image_url") or "")` and
fill width/height only if still empty. -/
def enrichImgStep (d : Dct) (f : Fields) : Fields :=
  let u := pyStr (pyOr (pyOr (dctGet d "url") (.str f.image_url)) (.str ""))
  let f1 := { f with image_url := u }
  let f2 := if f1.image_width = "" ∧ truthy (dctGet d "width") then
      { f1 with image_width := pyStr (dctGet d "width") }
    else f1
  if f2.image_height = "" ∧ truthy (dctGet d "height") then
    { f2 with image_height := pyStr (dctGet d "height") }
  else f2

/-- enrich: the per-size-key image loop; the loop breaks once
`image_url` is non-empty. -/
def enrichImgLoop (images : Dct) : List String → Fields → Fields
  | [], f => f
  | k :: ks, f =>
    match dctGet images k with
    | .dict d =>
      let f3 := enrichImgStep d f
      if f3.image_url ≠ "" then f3 else enrichImgLoop images ks f3
    | _ => enrichImgLoop images ks f

/-- enrich: the image block, entered only when `image_url` is empty. -/
def enrichImages (close : Dct) (f : Fields) : Fields :=
  if f.image_url = "" then
    match pyOr (dctGet close "images") (.dict []) with
    | .dict images => enrichImgLoop images sizeKeys f
    | _ => f
  else f

/-- `enrich_from_closeup_data(close, fields)` of app.py (the same text
appears in app_filters.py): map the detail-query data onto the working
field-set, filling only empty fields. -/
def enrich_from_closeup_data (close : Dct) (f : Fields) : Except Exc Fields :=
  let f1 := enrichTitleDescCreated close f
  let f2 := enrichAggCounts close f1
  let f3 := enrichRepin close f2
  let f4 := enrichPinner close f3
  match enrichBoard close f4 with
  | .error e => .error e
  | .ok f5 =>
    let f6 := enrichOutbound close f5
    .ok (enrichImages close f6)

/-- The step-4 image loop of `scrape_pin_detail` in app.py (lines
561-573): every present tier overwrites each of the three values with
`str(d.get(k) or current)`; the loop breaks once the URL is non-empty. -/
def scrapeImgLoop (images : Dct) : List String → String × String × String →
    String × String × String
  | [], t => t
  | k :: ks, (u, w, h) =>
    match dctGet images k with
    | .dict d =>
      let u1 := pyStr (pyOr (dctGet d "url") (.str u))
      let w1 := pyStr (pyOr (dctGet d "width") (.str w))
      let h1 := pyStr (pyOr (dctGet d "height") (.str h))
      if u1 ≠ "" then (u1, w1, h1) else scrapeImgLoop images ks (u1, w1, h1)
    | _ => scrapeImgLoop images ks (u, w, h)

/-- The image loop of the rich variant (pinterest_scraper_rich.py lines
216-224): every present tier overwrites URL, width and height together
(`image_url = str(images[k].get("url") or "")` and likewise for width
and height, with no emptiness guards); the loop breaks once the URL is
non-empty. -/
def richImgLoop (images : Dct) : List String → String × String × String →
    String × String × String
  | [], t => t
  | k :: ks, t =>
    match dctGet images k with
    | .dict d =>
      let u := pyStr (pyOr (dctGet d "url") (.str ""))
      let w := pyStr (pyOr (dctGet d "width") (.str ""))
      let h := pyStr (pyOr (dctGet d "height") (.str ""))
      if u ≠ "" then (u, w, h) else richImgLoop images ks (u, w, h)
    | _ => richImgLoop images ks t

/-- The first size tier present as a dict in preference order — the tier
the specification says supplies URL, width and height together. -/
def firstPresentTier (images : Dct) : List String → Option Dct
  | [] => Option.none
  | k :: ks =>
    match dctGet images k with
    | .dict d => some d
    | _ => firstPresentTier images ks

/-- The count-container keys probed by step 4 of `scrape_pin_detail`. -/
def countsKeys : List String :=
  ["saveCount", "aggregated_pin_data", "aggregatedPinData", "aggregatedStats", "counts", "stats"]

/-- The step-4 counters loop of `scrape_pin_detail`:
`save_count = save_count or str(d.get("saveCount") or d.get("saves") or "")`. -/
def scrapeCountsLoop (pd : Dct) : List String → String × String → String × String
  | [], t => t
  | k :: ks, (sc, cc) =>
    match dctGet pd k with
    | .dict d =>
      let sc1 := strOr sc (pyStr (pyOr (pyOr (dctGet d "saveCount") (dctGet d "saves")) (.str "")))
      let cc1 := strOr cc (pyStr (pyOr (pyOr (dctGet d "commentCount")
        (dctGet d "comments")) (.str "")))
      scrapeCountsLoop pd ks (sc1, cc1)
    | _ => scrapeCountsLoop pd ks (sc, cc)

/-- The canonical output record (`PinRow` of app.py). -/
structure PinRow where
  keyword : String
  pin_url : String
  pin_id : String
  title : String
  description : String
  image_url : String
  image_width : String
  image_height : String
  save_count : String
  comment_count : String
  pinner_username : String
  pinner_fullname : String
  pinner_profile_url : String
  board_name : String
  board_url : String
  outbound_link : String
  created_at : String
  deriving DecidableEq, Repr

/-- `extract_pin_urls_from_view(driver, seen)` of app.py (identical in
app_filters.py and, as `extract_pin_items_from_view`, in
pinterest_scraper_rich.py): keep anchors containing `/pin/`, strip the
query string and fragment, and skip already-seen URLs. -/
def extractView (anchors seen : List String) : List String :=
  match anchors with
  | [] => []
  | href :: rest =>
    if href = "" ∨ ¬ isSubstr "/pin/" href then extractView rest seen
    else
      let norm := splitHead (Char.ofNat 35) (splitHead (Char.ofNat 63) href)
      if norm ∈ seen then extractView rest seen else norm :: extractView rest seen

/-- The inner `for u in batch` loop of the crawler: append unseen URLs
and break once the target count is reached. -/
def addBatch (limit : Nat) : List String → List String → List String →
    List String × List String
  | [], c, s => (c, s)
  | u :: us, c, s =>
    if u ∈ s then addBatch limit us c s
    else
      let c2 := c ++ [u]
      let s2 := u :: s
      if limit ≤ c2.length then (c2, s2) else addBatch limit us c2 s2

/-- The observable state of one listing pass: the collected references,
the seen set, the idle counter, the iteration index (also indexing the
simulated view), and instrumentation counting `scroll_results` calls —
in total and while the target count was already reached. -/
structure CrawlSt where
  collected : List String
  seen : List String
  noGrowth : Nat
  iter : Nat
  scrolls : Nat
  scrollsAtTarget : Nat
  deriving DecidableEq, Repr

/-- The initial crawl state. -/
def crawlInit : CrawlSt := ⟨[], [], 0, 0, 0, 0⟩

/-- One body execution of the crawler loop of
`collect_pin_urls_for_keyword` (app.py lines 368-381; identically
`gather_for_keyword` in pinterest_scraper.py lines 172-188): extract,
append with cap, update the idle counter, and always scroll at the end. -/
def crawlIterate (view : Nat → List String) (limit : Nat) (s : CrawlSt) : CrawlSt :=
  let batch := extractView (view s.iter) s.seen
  let cs := addBatch limit batch s.collected s.seen
  let ng := if cs.1.length = s.collected.length then s.noGrowth + 1 else 0
  { collected := cs.1, seen := cs.2, noGrowth := ng, iter := s.iter + 1,
    scrolls := s.scrolls + 1,
    scrollsAtTarget := s.scrollsAtTarget + (if limit ≤ cs.1.length then 1 else 0) }

theorem addBatch_mono (limit : Nat) (us c s : List String) :
    c.length ≤ (addBatch limit us c s).1.length := by
  induction us generalizing c s with
  | nil => simp [addBatch]
  | cons u us ih =>
    simp only [addBatch]
    split
    · exact ih c s
    · split
      · simp
      · have := ih (c ++ [u]) (u :: s)
        simp at this
        omega

theorem addBatch_cap (limit : Nat) (us c s : List String) (h : c.length < limit) :
    (addBatch limit us c s).1.length ≤ limit := by
  induction us generalizing c s with
  | nil => simp [addBatch]; omega
  | cons u us ih =>
    simp only [addBatch]
    split
    · exact ih c s h
    · split
      · simp
        omega
      · rename_i hle
        apply ih
        simp at hle ⊢
        omega

theorem crawlIterate_progress (view : Nat → List String) (limit : Nat) (s : CrawlSt)
    (h1 : s.collected.length < limit) :
    ((crawlIterate view limit s).collected.length = s.collected.length ∧
      (crawlIterate view limit s).noGrowth = s.noGrowth + 1) ∨
    (s.collected.length < (crawlIterate view limit s).collected.length ∧
      (crawlIterate view limit s).collected.length ≤ limit) := by
  by_cases hl : (addBatch limit (extractView (view s.iter) s.seen) s.collected s.seen).1.length
      = s.collected.length
  · left
    simp [crawlIterate, hl]
  · right
    have hm := addBatch_mono limit (extractView (view s.iter) s.seen) s.collected s.seen
    have hc := addBatch_cap limit (extractView (view s.iter) s.seen) s.collected s.seen h1
    simp only [crawlIterate]
    exact ⟨by omega, hc⟩

/-- The crawler while-loop
`while len(collected) < limit_n and no_growth < 6`. -/
def crawlLoop (view : Nat → List String) (limit : Nat) (s : CrawlSt) : CrawlSt :=
  if h : s.collected.length < limit ∧ s.noGrowth < 6 then
    crawlLoop view limit (crawlIterate view limit s)
  else s
termination_by (limit - s.collected.length) * 7 + (6 - s.noGrowth)
decreasing_by
  rcases crawlIterate_progress view limit s h.1 with ⟨he, hn⟩ | ⟨hlt, hle⟩
  · rw [he, hn]
    omega
  · omega

/-- `collect_pin_urls_for_keyword(driver, keyword, limit_n, slow)` of
app.py (the same loop is `gather_for_keyword` in pinterest_scraper.py
and `collect_pin_urls_from_search_url` in app_filters.py), with the
rendered anchor lists per iteration supplied by `view`.  The function
also exposes the final loop state for the instrumented properties; the
returned reference list is `collected[:limit_n]`. -/
def collect_pin_urls_for_keyword (view : Nat → List String) (limit : Nat) : CrawlSt :=
  crawlLoop view limit crawlInit

/-- The reference list handed back: `collected[:limit_n]`. -/
def collectedRefs (view : Nat → List String) (limit : Nat) : List String :=
  (collect_pin_urls_for_keyword view limit).collected.take limit

/-- The recursion of `drop_duplicates(subset=["pin_url"])` with the
default `keep="first"`: keep a row iff its `pin_url` was not seen in an
earlier kept-or-dropped row; order preserved.  pandas documents exactly
this first-occurrence, order-preserving behaviour; the pandas library
itself is outside the repository, so its documented contract is the
model. -/
def dropDupByUrl (seen : List String) : List PinRow → List PinRow
  | [] => []
  | r :: rs =>
    if r.pin_url ∈ seen then dropDupByUrl seen rs
    else r :: dropDupByUrl (r.pin_url :: seen) rs

/-- The final deduplication pass `out_df.drop_duplicates(subset=["pin_url"])`
of app.py line 880 (same call in pinterest_scraper.py line 237 and
pinterest_scraper_rich.py line 388). -/
def drop_duplicates_by_pin_url (rows : List PinRow) : List PinRow :=
  dropDupByUrl [] rows

/-- The seen-set after the deduplication pass has processed a prefix of
the rows (the accumulator of `dropDupByUrl` after that prefix). -/
def seenAfter (seen : List String) : List PinRow → List String
  | [] => seen
  | r :: rs => seenAfter (if r.pin_url ∈ seen then seen else r.pin_url :: seen) rs

/-- Python `e1 or e2` over two fallible string expressions, evaluated
lazily like the source expression. -/
def orElseStr (x : Except Exc String) (y : Unit → Except Exc String) : Except Exc String :=
  match x with
  | .error e => .error e
  | .ok s => if s ≠ "" then .ok s else y ()

/-- Step 1 of `scrape_pin_detail`: the `__PWS_DATA__` script element.
Everything is inside one `try`, so any failure leaves the empty dict. -/
def step1InlineJson (drv : Driver) (pin_id : String) : Dct :=
  match drv.pwsInner with
  | .error _ => []
  | .ok raw0 =>
    let raw := strOr raw0 ""
    if raw ≠ "" then
      match drv.jloads raw with
      | .error _ => []
      | .ok data =>
        match find_first_pin_like_dict data (some pin_id) with
        | some cand => cand
        | Option.none => []
    else []

/-- The relational keys whose absence triggers step 2. -/
def step2Keys : List String :=
  ["pinner", "board", "images", "counts", "aggregatedStats", "saveCount"]

/-- The relational keys whose absence triggers step 3. -/
def step3Keys : List String := ["pinner", "board", "images"]

/-- `not pin_dict or not any(k in pin_dict for k in keys)`. -/
def needsMore (pd : Dct) (keys : List String) : Bool :=
  pd.isEmpty || !(keys.any (dctHas pd))

/-- Step 2 of `scrape_pin_detail`: CDP bodies, entered only when the
working dict still lacks the relational keys. -/
def step2Cdp (drv : Driver) (pin_id : String) (pd : Dct) : Except Exc Dct :=
  if needsMore pd step2Keys then
    match hunt_json_in_cdp_logs drv pin_id with
    | .error e => .error e
    | .ok (some cand) => .ok cand
    | .ok Option.none => .ok pd
  else .ok pd

/-- The blob scan of step 3: prefer a detail-query payload, else the
first pin-like dict. -/
def step3ScanBlobs (pin_id : String) : List PyVal → Option Dct
  | [] => Option.none
  | b :: bs =>
    match extract_closeup_from_json b with
    | some c => some c
    | Option.none =>
      match find_first_pin_like_dict b (some pin_id) with
      | some c2 => some c2
      | Option.none => step3ScanBlobs pin_id bs

/-- Step 3 of `scrape_pin_detail`: script/HTML brute hunt, entered only
when relational keys are still missing. -/
def step3Scripts (drv : Driver) (pin_id : String) (pd : Dct) : Except Exc Dct :=
  if needsMore pd step3Keys then
    match hunt_json_in_scripts drv with
    | .error e => .error e
    | .ok blobs =>
      match step3ScanBlobs pin_id blobs with
      | some cand => .ok cand
      | Option.none => .ok pd
  else .ok pd

/-- Step 4 of `scrape_pin_detail` (app.py lines 556-605): the pure field
extraction from whatever pin dict the first three steps produced. -/
def baseFields (pd : Dct) : Fields :=
  let title := pyStr (pyOr (pyOr (pyOr (dctGet pd "grid_title") (dctGet pd "gridTitle"))
    (dctGet pd "title")) (.str ""))
  let description := pyStr (pyOr (pyOr (dctGet pd "description")
    (dctGet pd "closeupUnifiedDescription")) (.str ""))
  let created_at := pyStr (pyOr (pyOr (dctGet pd "created_at") (dctGet pd "createdAt")) (.str ""))
  let img := match dctGet pd "images" with
    | .dict images => scrapeImgLoop images sizeKeys ("", "", "")
    | _ => ("", "", "")
  let counts := scrapeCountsLoop pd countsKeys ("", "")
  let save1 := strOr counts.1 (pyStr (pyOr (pyOr (dctGet pd "saveCount")
    (dctGet pd "repinCount")) (.str "")))
  let comment1 := strOr counts.2 (pyStr (pyOr (dctGet pd "commentCount") (.str "")))
  let outbound := pyStr (pyOr (pyOr (dctGet pd "link") (dctGet pd "dominant_link")) (.str ""))
  let pf := match dctGet pd "pinner" with
    | .dict pinner =>
      let pu := pyStr (pyOr (dctGet pinner "username") (.str ""))
      let pn := pyStr (pyOr (pyOr (dctGet pinner "full_name") (dctGet pinner "fullName"))
        (.str ""))
      let pp := if pu ≠ "" then "https://www.pinterest.com/" ++ pu ++ "/" else ""
      (pu, pn, pp)
    | _ => ("", "", "")
  let bf := match dctGet pd "board" with
    | .dict board =>
      let bn := pyStr (pyOr (dctGet board "name") (.str ""))
      let bu := pyStr (pyOr (dctGet board "url") (.str ""))
      let owner : Dct := match dctGet board "owner" with | .dict o => o | _ => []
      let ownerUsr := pyOr (dctGet owner "username") (.str "")
      let slug := pyOr (dctGet board "slug") (.str "")
      let bu2 := if bu = "" then
          (if truthy ownerUsr ∧ truthy slug then
            "https://www.pinterest.com/" ++ pyStr ownerUsr ++ "/" ++ pyStr slug ++ "/"
          else bu)
        else bu
      (bn, bu2)
    | _ => ("", "")
  { title := title, description := description, created_at := created_at,
    image_url := img.1, image_width := img.2.1, image_height := img.2.2,
    save_count := save1, comment_count := comment1,
    pinner_username := pf.1, pinner_fullname := pf.2.1, pinner_profile_url := pf.2.2,
    board_name := bf.1, board_url := bf.2, outbound_link := outbound }

/-- Step 5 of `scrape_pin_detail`: the unconditional detail-query
enrichment attempt. -/
def step5Closeup (drv : Driver) (f : Fields) : Except Exc Fields :=
  match get_closeup_data_from_any drv with
  | .error e => .error e
  | .ok (some closeup) => enrich_from_closeup_data closeup f
  | .ok Option.none => .ok f

/-- Step 6, title fallback: meta tags, then `h1`/`h2` text through
`retry_stale` — the latter two without any surrounding `try`. -/
def fbTitle (drv : Driver) (f : Fields) : Except Exc Fields :=
  if f.title = "" then do
    let t ← orElseStr (text_from_meta drv "og:title" true)
      (fun _ => text_from_meta drv "twitter:title" false)
    if t ≠ "" then pure { f with title := t }
    else do
      let t2 ← orElseStr (retry_stale fun i => get_text_safe drv "h1" i)
        (fun _ => retry_stale fun i => get_text_safe drv "h2" i)
      pure { f with title := t2 }
  else pure f

/-- Step 6, description fallback. -/
def fbDesc (drv : Driver) (f : Fields) : Except Exc Fields :=
  if f.description = "" then do
    let d ← orElseStr (text_from_meta drv "og:description" true)
      (fun _ => text_from_meta drv "description" false)
    pure { f with description := d }
  else pure f

/-- Step 6, image fallback: the `og:image` meta, then the first `img`
element (wrapped in a `try`, so a failing element read contributes
nothing). -/
def fbImage (drv : Driver) (f : Fields) : Except Exc Fields := do
  let f1 ← if f.image_url = "" then do
      let u ← text_from_meta drv "og:image" true
      pure { f with image_url := u }
    else pure f
  if f1.image_url = "" ∨ f1.image_width = "" ∨ f1.image_height = "" then
    match retry_stale drv.findImg with
    | .error _ => pure f1
    | .ok img =>
      let f2 := if f1.image_url = "" then { f1 with image_url := extract_image_src img } else f1
      let f3 := if f2.image_width = "" then { f2 with image_width := img.width } else f2
      pure (if f3.image_height = "" then { f3 with image_height := img.height } else f3)
  else pure f1

/-- The character class `[\d.,KMBkmb]` of the count-phrase regexes. -/
def countClassChar (c : Char) : Bool :=
  c.isDigit || c == ',' || c == '.' || c == 'K' || c == 'M' || c == 'B' ||
    c == 'k' || c == 'm' || c == 'b'

/-- Model of `re.search(r"([\d.,KMBkmb]+)\s*" + word + "s?", t)`: at each
position, the greedy class run, optional whitespace, then the literal
word; the optional trailing `s` constrains nothing.  The class, the
whitespace and the first letter of the word are pairwise disjoint, so
greedy scanning without backtracking is exact. -/
def searchCount (word : List Char) : List Char → Option String
  | [] => Option.none
  | c :: cs =>
    if countClassChar c then
      let run := (c :: cs).takeWhile countClassChar
      let rest := ((c :: cs).dropWhile countClassChar).dropWhile wsChar
      if word.isPrefixOf rest then some run.asString else searchCount word cs
    else searchCount word cs

/-- The `for t in [t1, t2, t3]` loop of the count fallbacks: the first
non-empty probe text whose count phrase matches gives the group. -/
def firstCountMatch (word : String) : List String → Option String
  | [] => Option.none
  | t :: ts =>
    if t = "" then firstCountMatch word ts
    else
      match searchCount word.data t.data with
      | some g => some g
      | Option.none => firstCountMatch word ts

/-- `"[data-test-id='socialCount']"`. -/
def selSocialCount : String := "[data-test-id=" ++ pyQuote ++ "socialCount" ++ pyQuote ++ "]"

/-- `"div[class*='SocialCounts'], span[class*='SocialCounts']"`. -/
def selSocialClasses : String :=
  "div[class*=" ++ pyQuote ++ "SocialCounts" ++ pyQuote ++ "], span[class*=" ++
    pyQuote ++ "SocialCounts" ++ pyQuote ++ "]"

/-- `"[data-test-id='commentsCount']"`. -/
def selCommentsCount : String := "[data-test-id=" ++ pyQuote ++ "commentsCount" ++ pyQuote ++ "]"

/-- `"a[data-test-id='PinActionBar-visitButton']"`. -/
def selVisitButton : String :=
  "a[data-test-id=" ++ pyQuote ++ "PinActionBar-visitButton" ++ pyQuote ++ "]"

/-- Step 6, save-count fallback: two CSS probes through `retry_stale`
(unprotected), one wrapped XPath probe, then the saves-phrase regex fed
into `parse_compact_number` (also unprotected). -/
def fbSave (drv : Driver) (f : Fields) : Except Exc Fields :=
  if f.save_count = "" then do
    let t1 ← retry_stale fun i => get_text_safe drv selSocialCount i
    let t2 ← retry_stale fun i => get_text_safe drv selSocialClasses i
    let t3 := find_text_contains drv "save"
    match firstCountMatch "save" [t1, t2, t3] with
    | some g => do
      let v ← parse_compact_number g
      pure { f with save_count := v }
    | Option.none => pure f
  else pure f

/-- Step 6, comment-count fallback. -/
def fbComment (drv : Driver) (f : Fields) : Except Exc Fields :=
  if f.comment_count = "" then do
    let t1 ← retry_stale fun i => get_text_safe drv selCommentsCount i
    let t2 := find_text_contains drv "comment"
    match firstCountMatch "comment" [t1, t2] with
    | some g => do
      let v ← parse_compact_number g
      pure { f with comment_count := v }
    | Option.none => pure f
  else pure f

/-- The anchor loop of the pinner fallback (app.py lines 682-696). -/
def pinnerScan : Fields → List (String × String) → Fields
  | f, [] => f
  | f, (href, txt) :: rest =>
    if href = "" ∨ isSubstr "/pin/" href then pinnerScan f rest
    else
      let href2 := if pyStartsWith href "/" then "https://www.pinterest.com" ++ href else href
      let path := href2.replace "https://www.pinterest.com/" ""
      if path ≠ "" ∧ isSubstr "/" path ∧ countChar path '/' = 1 then
        let maybeUser := pyStripChar path '/'
        if maybeUser ≠ "" ∧ ¬ isSubstr "ideas" (pyLower maybeUser) then
          let f1 := { f with pinner_username := strOr f.pinner_username maybeUser,
                             pinner_profile_url := strOr f.pinner_profile_url href2 }
          if f1.pinner_fullname = "" then
            { f1 with pinner_fullname := strOr (pyStrip txt) f1.pinner_fullname }
          else f1
        else pinnerScan f rest
      else pinnerScan f rest

/-- Step 6, pinner fallback (entirely wrapped in a `try`). -/
def fbPinner (drv : Driver) (f : Fields) : Except Exc Fields :=
  if f.pinner_username = "" ∨ f.pinner_profile_url = "" then
    match retry_stale drv.pinnerAnchors with
    | .error _ => pure f
    | .ok anchors => pure (pinnerScan f anchors)
  else pure f

/-- The anchor loop of the board fallback (app.py lines 703-712). -/
def boardScan : Fields → List (String × String) → Fields
  | f, [] => f
  | f, (href0, txt) :: rest =>
    let href := strOr href0 ""
    if isSubstr "/pin/" href then boardScan f rest
    else
      let path := pyStripChar (href.replace "https://www.pinterest.com/" "") '/'
      if countChar path '/' = 2 then
        let f1 := { f with board_url := href }
        if f1.board_name = "" then { f1 with board_name := pyStrip txt } else f1
      else boardScan f rest

/-- Step 6, board fallback (entirely wrapped in a `try`). -/
def fbBoard (drv : Driver) (f : Fields) : Except Exc Fields :=
  if f.board_url = "" then
    match retry_stale drv.boardAnchors with
    | .error _ => pure f
    | .ok anchors => pure (boardScan f anchors)
  else pure f

/-- The anchor loop of the outbound-link fallback (app.py lines 720-730). -/
def targetBlankScan : Fields → List (String × String) → Fields
  | f, [] => f
  | f, (rel0, href0) :: rest =>
    let rel := strOr rel0 ""
    let href := strOr href0 ""
    if href = "" ∨ pyStartsWith href "https://www.pinterest.com/" = true then targetBlankScan f rest
    else if isSubstr "nofollow" rel || isSubstr "noopener" rel || isSubstr "noreferrer" rel then
      { f with outbound_link := href }
    else targetBlankScan f rest

/-- Step 6, outbound fallback: the visit-button attribute through
`retry_stale` (unprotected), then the wrapped `target=_blank` scan. -/
def fbOutbound (drv : Driver) (f : Fields) : Except Exc Fields := do
  let f1 ← if f.outbound_link = "" then do
      let v ← retry_stale fun i => attr_safe drv selVisitButton "href" i
      pure { f with outbound_link := v }
    else pure f
  if f1.outbound_link = "" then
    match retry_stale drv.targetBlankAnchors with
    | .error _ => pure f1
    | .ok anchors => pure (targetBlankScan f1 anchors)
  else pure f1

/-- Step 6, created-at fallback: the first non-empty `datetime` of a
`time` element (wrapped in a `try`). -/
def fbCreated (drv : Driver) (f : Fields) : Except Exc Fields :=
  if f.created_at = "" then
    match drv.timeDatetimes with
    | .error _ => pure f
    | .ok dts =>
      match dts.find? (fun s => s != "") with
      | some dt => pure { f with created_at := dt }
      | Option.none => pure f
  else pure f

/-- The final normalization (app.py lines 743-746): a non-empty,
non-digit counter is re-passed through `parse_compact_number`
(unprotected, so an overflow there raises). -/
def normalizeCounts (f : Fields) : Except Exc Fields := do
  let sc ← if f.save_count ≠ "" ∧ ¬ pyIsdigit f.save_count then
      parse_compact_number f.save_count
    else pure f.save_count
  let cc ← if f.comment_count ≠ "" ∧ ¬ pyIsdigit f.comment_count then
      parse_compact_number f.comment_count
    else pure f.comment_count
  pure { f with save_count := sc, comment_count := cc }

/-- The `return PinRow(...)` record assembly (app.py lines 748-766):
every field passes through `or ""`, so a record field is never `None`. -/
def assemblePinRow (keyword pin_url pin_id : String) (f : Fields) : PinRow :=
  { keyword := keyword, pin_url := pin_url, pin_id := pin_id,
    title := strOr f.title "", description := strOr f.description "",
    image_url := strOr f.image_url "",
    image_width := strOr f.image_width "", image_height := strOr f.image_height "",
    save_count := strOr f.save_count "", comment_count := strOr f.comment_count "",
    pinner_username := strOr f.pinner_username "",
    pinner_fullname := strOr f.pinner_fullname "",
    pinner_profile_url := strOr f.pinner_profile_url "",
    board_name := strOr f.board_name "", board_url := strOr f.board_url "",
    outbound_link := strOr f.outbound_link "", created_at := strOr f.created_at "" }

/-- `scrape_pin_detail(driver, pin_url, keyword, wait_sec)` of app.py:
navigation (unprotected), the wrapped wait, then the resolver cascade
steps 1-6, normalization, and the frozen record. -/
def scrape_pin_detail (drv : Driver) (pin_url keyword : String) : Except Exc PinRow := do
  let _ ← drv.nav pin_url
  let _ := drv.waitAny
  let pin_id := parse_pin_id pin_url
  let pd1 := step1InlineJson drv pin_id
  let pd2 ← step2Cdp drv pin_id pd1
  let pd3 ← step3Scripts drv pin_id pd2
  let f0 := baseFields pd3
  let f1 ← step5Closeup drv f0
  let f2 ← fbTitle drv f1
  let f3 ← fbDesc drv f2
  let f4 ← fbImage drv f3
  let f5 ← fbSave drv f4
  let f6 ← fbComment drv f5
  let f7 ← fbPinner drv f6
  let f8 ← fbBoard drv f7
  let f9 ← fbOutbound drv f8
  let f10 ← fbCreated drv f9
  let f11 ← normalizeCounts f10
  pure (assemblePinRow keyword pin_url pin_id f11)

/-- A browser session in which every content channel is absent: no
`__PWS_DATA__` element, no performance log, no parseable JSON, no
matching meta tags or elements, empty texts everywhere.  Navigation
itself succeeds. -/
def emptyDriver : Driver where
  nav := fun _ => .ok ()
  waitAny := .ok ()
  pwsInner := .error .noSuchElement
  jloads := fun _ => .error ()
  getLog := .error .err
  bodyText := fun _ => .error .err
  scripts := .ok []
  pageSource := .ok ""
  metaContent := fun _ _ => .error .noSuchElement
  cssText := fun _ _ => .ok ""
  cssAttr := fun _ _ _ => .error .noSuchElement
  xpathTexts := fun _ => .ok []
  findImg := fun _ => .error .noSuchElement
  pinnerAnchors := fun _ => .ok []
  boardAnchors := fun _ => .ok []
  targetBlankAnchors := fun _ => .ok []
  timeDatetimes := .ok []

/-- Like `emptyDriver`, but the `h1` element backing the title fallback
keeps raising `StaleElementReferenceException` on every attempt. -/
def staleTitleDriver : Driver :=
  { emptyDriver with cssText := fun css _ => if css = "h1" then .error .stale else .ok "" }

/-- Occurrence of a value inside a JSON structure: reflexive closure of
membership through dict values and list elements.  This is the reachable
set of the stack traversals. -/
inductive SubVal : PyVal → PyVal → Prop where
  | refl (v : PyVal) : SubVal v v
  | inDict {x w : PyVal} {kvs : List (String × PyVal)} (k : String)
      (hm : (k, w) ∈ kvs) (h : SubVal x w) : SubVal x (.dict kvs)
  | inList {x w : PyVal} {xs : List PyVal} (hm : w ∈ xs) (h : SubVal x w) :
      SubVal x (.list xs)

/-- A structure contains an entity-like mapping whose identifier
string-equals `h`. -/
def ContainsHinted (hint : String) (v : PyVal) : Prop :=
  ∃ kvs : Dct, SubVal (.dict kvs) v ∧ pinLike kvs = true ∧ pyStr (dctGet kvs "id") = hint

/-- The no-overwrite property of a pass over the working field-set:
every field is either left unchanged or was empty on entry.  This is
the frame property behind the confidence-ordered merge. -/
def NoOv (g : Fields → Fields) : Prop :=
  ∀ f : Fields,
    ((g f).title = f.title ∨ f.title = "") ∧
    ((g f).description = f.description ∨ f.description = "") ∧
    ((g f).created_at = f.created_at ∨ f.created_at = "") ∧
    ((g f).image_url = f.image_url ∨ f.image_url = "") ∧
    ((g f).image_width = f.image_width ∨ f.image_width = "") ∧
    ((g f).image_height = f.image_height ∨ f.image_height = "") ∧
    ((g f).save_count = f.save_count ∨ f.save_count = "") ∧
    ((g f).comment_count = f.comment_count ∨ f.comment_count = "") ∧
    ((g f).pinner_username = f.pinner_username ∨ f.pinner_username = "") ∧
    ((g f).pinner_fullname = f.pinner_fullname ∨ f.pinner_fullname = "") ∧
    ((g f).pinner_profile_url = f.pinner_profile_url ∨ f.pinner_profile_url = "") ∧
    ((g f).board_name = f.board_name ∨ f.board_name = "") ∧
    ((g f).board_url = f.board_url ∨ f.board_url = "") ∧
    ((g f).outbound_link = f.outbound_link ∨ f.outbound_link = "")

/-- A CDP log entry whose message string is `"M"`. -/
def cdpEntry : PyVal := .dict [("message", .str "M")]

/-- The parsed message of `cdpEntry`: a `Network.responseReceived`
notification with request id `"R"` and a JSON mime type. -/
def cdpMsgVal : PyVal :=
  .dict [("message", .dict [
    ("method", .str "Network.responseReceived"),
    ("params", .dict [
      ("requestId", .str "R"),
      ("response", .dict [("mimeType", .str "json")])])])]

/-- The fetched response body behind `cdpEntry`. -/
def cdpBody : String := "\x7b\"id\": \"1\"\x7d"

/-- The parsed body payload: a pin-like candidate with identifier "1". -/
def cdpPayloadMiss : PyVal := .dict [("id", .str "1"), ("title", .str "t")]

/-- Like `cdpPayloadMiss` with identifier "2". -/
def cdpPayloadHit : PyVal := .dict [("id", .str "2"), ("title", .str "t")]

/-- A browser session whose performance log holds exactly `cdpEntry`,
whose body fetch returns `cdpBody`, and whose JSON parser maps `"M"` to
the message and the body to the id-"1" candidate. -/
def cdpMissDriver : Driver :=
  { emptyDriver with
    getLog := .ok [cdpEntry],
    bodyText := fun _ => .ok cdpBody,
    jloads := fun s => if s = "M" then .ok cdpMsgVal
      else if s = cdpBody then .ok cdpPayloadMiss else .error () }

/-- `cdpMissDriver` with the body parsing to the id-"2" candidate. -/
def cdpHitDriver : Driver :=
  { emptyDriver with
    getLog := .ok [cdpEntry],
    bodyText := fun _ => .ok cdpBody,
    jloads := fun s => if s = "M" then .ok cdpMsgVal
      else if s = cdpBody then .ok cdpPayloadHit else .error () }

/-- The title extraction of the rich-variant resolver
(pinterest_scraper_rich.py lines 204-207):
`str(pin_dict.get("grid_title")) or str(pin_dict.get("title") or "")` —
the first `str(...)` is applied to the raw `get` result, so a missing
`grid_title` yields `str(None)`, the string "None". -/
def richTitle (pd : Dct) : String :=
  strOr (pyStr (dctGet pd "grid_title")) (pyStr (pyOr (dctGet pd "title") (.str "")))

/-- The `if not title:` DOM fallback guard of the rich variant
(pinterest_scraper_rich.py lines 289-291): the meta-tag title is used
only when the extracted title is falsy. -/
def richTitleFinal (pd : Dct) (metaTitle : String) : String :=
  if richTitle pd = "" then metaTitle else richTitle pd

/-! ## Support lemmas -/

theorem mem_takeWhile_mem {a : Char} {p : Char → Bool} {l : List Char}
    (h : a ∈ l.takeWhile p) : a ∈ l := by
  have := List.takeWhile_append_dropWhile (p := p) (l := l)
  rw [← this]
  exact List.mem_append_left _ h

theorem mem_dropWhile_mem {a : Char} {p : Char → Bool} {l : List Char}
    (h : a ∈ l.dropWhile p) : a ∈ l := by
  have := List.takeWhile_append_dropWhile (p := p) (l := l)
  rw [← this]
  exact List.mem_append_right _ h

theorem takeWhile_length_le (p : Char → Bool) (l : List Char) :
    (l.takeWhile p).length ≤ l.length := by
  have := congrArg List.length (List.takeWhile_append_dropWhile (p := p) (l := l))
  simp only [List.length_append] at this
  omega

theorem mem_pyStrip_mem {a : Char} {s : String} (h : a ∈ (pyStrip s).data) : a ∈ s.data := by
  simp only [pyStrip] at h
  rw [List.mem_reverse] at h
  have h2 := mem_dropWhile_mem h
  rw [List.mem_reverse] at h2
  exact mem_dropWhile_mem h2

theorem pyStrip_length_le (s : String) : (pyStrip s).data.length ≤ s.data.length := by
  simp only [pyStrip]
  have h1 := dropWhile_length_le wsChar s.data
  have h2 := dropWhile_length_le wsChar (s.data.dropWhile wsChar).reverse
  simp only [List.length_reverse] at *
  omega

theorem numSearch_run_mem {l run : List Char} {suf : Option Char}
    (h : numSearch l = some (run, suf)) : ∀ c ∈ run, c ∈ l := by
  induction l with
  | nil => simp [numSearch] at h
  | cons x xs ih =>
    simp only [numSearch] at h
    split at h
    · simp only [Option.some.injEq, Prod.mk.injEq] at h
      obtain ⟨rfl, -⟩ := h
      intro c hc
      exact mem_takeWhile_mem hc
    · intro c hc
      exact List.mem_cons_of_mem x (ih h c hc)

theorem numSearch_run_length {l run : List Char} {suf : Option Char}
    (h : numSearch l = some (run, suf)) : run.length ≤ l.length := by
  induction l with
  | nil => simp [numSearch] at h
  | cons x xs ih =>
    simp only [numSearch] at h
    split at h
    · simp only [Option.some.injEq, Prod.mk.injEq] at h
      obtain ⟨rfl, -⟩ := h
      exact takeWhile_length_le _ _
    · have := ih h
      simp only [List.length_cons]
      omega

theorem isDigit_sub_le {c : Char} (h : c.isDigit = true) : c.toNat - 48 ≤ 9 := by
  simp only [Char.isDigit, Bool.and_eq_true, decide_eq_true_eq] at h
  obtain ⟨-, h2⟩ := h
  have h3 : c.val.toNat ≤ (57 : UInt32).toNat := h2
  have h4 : (57 : UInt32).toNat = 57 := rfl
  simp only [Char.toNat]
  omega

theorem digitsVal_lt (l : List Char) (h : ∀ c ∈ l, c.isDigit = true) :
    digitsVal l < 10 ^ l.length := by
  induction l with
  | nil => simp [digitsVal]
  | cons c cs ih =>
    have hd := isDigit_sub_le (h c (List.mem_cons_self c cs))
    have hr := ih (fun x hx => h x (List.mem_cons_of_mem c hx))
    simp only [digitsVal, List.length_cons, pow_succ]
    have h1 : (c.toNat - 48) * 10 ^ cs.length ≤ 9 * 10 ^ cs.length :=
      Nat.mul_le_mul_right _ hd
    omega

theorem floatRun_bound {cs : List Char} {n k : Nat} (h : floatRun cs = some (n, k)) :
    n < 10 ^ cs.length := by
  simp only [floatRun] at h
  split at h
  case isFalse => exact absurd h (by simp)
  case isTrue hc =>
    obtain ⟨hall, -, hdot⟩ := hc
    simp only [Option.some.injEq, Prod.mk.injEq] at h
    obtain ⟨rfl, -⟩ := h
    have hsplit := List.takeWhile_append_dropWhile (p := (fun c => c ≠ '.')) (l := cs)
    have hipd : ∀ c ∈ cs.takeWhile (fun c => c ≠ '.'), c.isDigit = true := by
      intro c hcm
      have hp : ¬ (c = '.') := by simpa using List.mem_takeWhile_imp hcm
      rcases hall c (mem_takeWhile_mem hcm) with hli | hli
      · exact hli
      · exact absurd hli hp
    have hfpd : ∀ c ∈ (cs.dropWhile (fun c => c ≠ '.')).drop 1, c.isDigit = true := by
      intro c hcm
      have hcs : c ∈ cs := mem_dropWhile_mem (List.mem_of_mem_drop hcm)
      rcases hall c hcs with hli | hli
      · exact hli
      · exfalso
        subst hli
        have htc : List.count '.' (cs.takeWhile (fun c => c ≠ '.')) = 0 := by
          rw [List.count_eq_zero]
          intro hmem
          have := List.mem_takeWhile_imp hmem
          simp at this
        have hcnt := congrArg (List.count '.') hsplit
        rw [List.count_append, htc] at hcnt
        rcases hdw : cs.dropWhile (fun c => c ≠ '.') with _ | ⟨d, rest⟩
        · rw [hdw] at hcm
          simp at hcm
        · have hd : d = '.' := by
            have hlen0 : 0 < (cs.dropWhile (fun c => c ≠ '.')).length := by
              rw [hdw]; simp
            have hget := List.dropWhile_get_zero_not (p := (fun c => c ≠ '.')) cs hlen0
            simp only [List.get_eq_getElem, hdw, List.getElem_cons_zero, ne_eq,
              Decidable.not_not] at hget
            simpa using hget
          rw [hdw] at hcnt hcm
          subst hd
          simp only [List.count_cons_self] at hcnt
          have : List.count '.' rest = 0 := by omega
          simp only [List.drop_one, List.tail_cons] at hcm
          rw [List.count_eq_zero] at this
          exact this hcm
    have h1 := digitsVal_lt _ hipd
    have h2 := digitsVal_lt _ hfpd
    have hlen : (cs.takeWhile (fun c => c ≠ '.')).length +
        ((cs.dropWhile (fun c => c ≠ '.')).drop 1).length ≤ cs.length := by
      have := congrArg List.length hsplit
      simp only [List.length_append] at this
      have hd := List.length_drop 1 (cs.dropWhile (fun c => c ≠ '.'))
      omega
    set tw := cs.takeWhile (fun c => c ≠ '.') with htw
    set dw := (cs.dropWhile (fun c => c ≠ '.')).drop 1 with hdww
    set A := digitsVal tw * 10 ^ dw.length with hA
    have h1' : digitsVal tw ≤ 10 ^ tw.length - 1 := by omega
    have hm : A ≤ (10 ^ tw.length - 1) * 10 ^ dw.length := by
      rw [hA]; exact Nat.mul_le_mul_right _ h1'
    have he : (10 ^ tw.length - 1) * 10 ^ dw.length
        = 10 ^ (tw.length + dw.length) - 10 ^ dw.length := by
      rw [Nat.sub_mul, one_mul, ← pow_add]
    rw [he] at hm
    have hle : (10 : Nat) ^ (tw.length + dw.length) ≤ 10 ^ cs.length :=
      Nat.pow_le_pow_right (by norm_num) hlen
    have hfp1 : 1 ≤ (10 : Nat) ^ dw.length := Nat.one_le_pow _ _ (by norm_num)
    have hcm : (10 : Nat) ^ dw.length ≤ 10 ^ (tw.length + dw.length) :=
      Nat.pow_le_pow_right (by norm_num) (by omega)
    omega

theorem sufMul_le (suf : Option Char) : sufMul suf ≤ 1000000000 := by
  rcases suf with _ | c
  · simp [sufMul]
  · simp only [sufMul]
    split_ifs <;> norm_num

theorem pow308_le_dblMax : 10 ^ 308 ≤ dblMaxNat := by
  norm_num [dblMaxNat]

theorem parse_compact_no_digit (s : String) (h : ∀ c ∈ s.data, ¬ c.isDigit = true) :
    parse_compact_number s = .ok "" := by
  unfold parse_compact_number
  rcases hn : numSearch (pyStrip s).data with _ | ⟨run, suf⟩
  · simp [hn]
  · have hrun : ∀ c ∈ run, c ∈ s.data := fun c hc =>
      mem_pyStrip_mem (numSearch_run_mem hn c hc)
    have hf : floatRun (run.filter (fun x => !decide (x = ','))) = Option.none := by
      rw [floatRun, if_neg]
      rintro ⟨-, ⟨c, hc, hdig⟩, -⟩
      exact h c (hrun c (List.mem_of_mem_filter hc)) hdig
    simp [hn, hf]

theorem parse_compact_ok_of_short (s : String) (h : s.data.length ≤ 299) :
    ∃ r, parse_compact_number s = .ok r := by
  unfold parse_compact_number
  rcases hn : numSearch (pyStrip s).data with _ | ⟨run, suf⟩
  · exact ⟨"", by simp [hn]⟩
  · rcases hf : floatRun (run.filter (fun x => !decide (x = ','))) with _ | ⟨n, k⟩
    · exact ⟨"", by simp [hn, hf]⟩
    · have hb : n < 10 ^ (run.filter (fun x => !decide (x = ','))).length := floatRun_bound hf
      have hl1 : (run.filter (fun x => !decide (x = ','))).length ≤ run.length :=
        List.length_filter_le _ _
      have hl2 : run.length ≤ (pyStrip s).data.length := numSearch_run_length hn
      have hl3 : (pyStrip s).data.length ≤ s.data.length := pyStrip_length_le s
      have hmul := sufMul_le suf
      have hn2 : n < 10 ^ 299 :=
        lt_of_lt_of_le hb (Nat.pow_le_pow_right (by norm_num) (by omega))
      have hbound : n * sufMul suf ≤ dblMaxNat * 10 ^ k := by
        have hstep : n * sufMul suf ≤ 10 ^ 299 * 1000000000 := by
          calc n * sufMul suf ≤ n * 1000000000 := Nat.mul_le_mul_left _ hmul
          _ ≤ 10 ^ 299 * 1000000000 := Nat.mul_le_mul_right _ (by omega)
        have heq : (10 : Nat) ^ 299 * 1000000000 = 10 ^ 308 := by norm_num
        have hk : dblMaxNat ≤ dblMaxNat * 10 ^ k :=
          Nat.le_mul_of_pos_right _ (Nat.pos_pow_of_pos _ (by norm_num))
        have := pow308_le_dblMax
        omega
      refine ⟨toString (n * sufMul suf / 10 ^ k), ?_⟩
      simp [hn, hf, if_pos hbound]

/-! ## Claim C6 — the Compact-Number Normalizer -/

/-- C6, counterexample: the claim says `parse_compact_number` never
raises on any string input, but on a 400-digit run `float` returns
`inf` and the unprotected `int(...)` raises `OverflowError`. -/
theorem c6_counterexample_overflow :
    parse_compact_number (String.mk (List.replicate 400 '9')) = .error .overflow := by
  decide

/-- C6, amended: the Compact-Number Normalizer returns the scaled
integer as a decimal string (multipliers k, m, b as 10^3, 10^6, 10^9 and
1 without suffix); the four specified examples hold; every input without
a digit yields the empty string; and the function does not raise on any
input shorter than 300 characters (inputs whose numeric run stays below
the IEEE-double range) — only a numeric run overflowing the double range
raises. -/
theorem c6_normalizer_behaviour :
    parse_compact_number "12.3K" = .ok "12300" ∧
    parse_compact_number "4,321" = .ok "4321" ∧
    parse_compact_number "2B" = .ok "2000000000" ∧
    parse_compact_number "" = .ok "" ∧
    (∀ s : String, (∀ c ∈ s.data, ¬ c.isDigit = true) → parse_compact_number s = .ok "") ∧
    (∀ s : String, s.data.length ≤ 299 → ∃ r, parse_compact_number s = .ok r) :=
  ⟨by decide, by decide, by decide, by decide,
    parse_compact_no_digit, parse_compact_ok_of_short⟩

/-- C6, witness for the hypotheses of the amended theorem. -/
theorem c6_normalizer_behaviour_witness :
    parse_compact_number "no digits" = .ok "" ∧
    ∃ r, parse_compact_number "42 xyz" = .ok r :=
  ⟨c6_normalizer_behaviour.2.2.2.2.1 "no digits" (by decide),
   c6_normalizer_behaviour.2.2.2.2.2 "42 xyz" (by decide)⟩

/-! ## Claim C7 — JSON Substructure Search hint precedence -/

theorem ffplLoop_finds (hint : String) (hne : hint ≠ "") :
    ∀ n (stack : List PyVal) (fb : Option Dct), stackSize stack = n →
      (∃ x ∈ stack, ContainsHinted hint x) →
      ∃ d, ffplLoop (some hint) stack fb = some d ∧
        pinLike d = true ∧ pyStr (dctGet d "id") = hint := by
  intro n
  induction n using Nat.strong_induction_on with
  | _ n ih =>
    intro stack fb hsz hex
    match stack with
    | [] =>
      obtain ⟨x, hx, -⟩ := hex
      exact absurd hx (List.not_mem_nil x)
    | cur :: rest =>
      obtain ⟨x, hx, hch⟩ := hex
      cases cur with
      | dict kvs =>
        by_cases hm : (pinLike kvs && hintMatch (some hint) kvs) = true
        · refine ⟨kvs, ?_, ?_, ?_⟩
          · simp only [ffplLoop, hm, if_true]
          · exact (Bool.and_elim_left hm)
          · have := Bool.and_elim_right hm
            simp only [hintMatch, Bool.and_eq_true, beq_iff_eq, bne_iff_ne] at this
            exact this.2
        · have hrec : ∃ x ∈ (kvs.map Prod.snd).reverse ++ rest, ContainsHinted hint x := by
            rcases List.mem_cons.mp hx with rfl | hxr
            · obtain ⟨kvs2, hsub, hpl, hid⟩ := hch
              cases hsub with
              | refl =>
                exfalso
                apply hm
                simp only [pinLike] at hpl
                simp only [pinLike, hintMatch, Bool.and_eq_true, beq_iff_eq, bne_iff_ne]
                exact ⟨by simpa using hpl, hne, hid⟩
              | inDict k hmem hsub2 =>
                refine ⟨_, ?_, ⟨kvs2, hsub2, hpl, hid⟩⟩
                apply List.mem_append_left
                rw [List.mem_reverse]
                exact List.mem_map_of_mem Prod.snd hmem
            · exact ⟨x, List.mem_append_right _ hxr, hch⟩
          have hsz2 : stackSize ((kvs.map Prod.snd).reverse ++ rest) < n := by
            rw [← hsz]
            rw [stackSize_append, stackSize_reverse, stackSize_cons]
            have := stackSize_vals_lt kvs
            omega
          rw [ffplLoop]
          rw [if_neg hm]
          exact ih _ hsz2 _ _ rfl hrec
      | list xs =>
        have hrec : ∃ x ∈ xs.reverse ++ rest, ContainsHinted hint x := by
          rcases List.mem_cons.mp hx with rfl | hxr
          · obtain ⟨kvs2, hsub, hpl, hid⟩ := hch
            cases hsub with
            | inList hmem hsub2 =>
              refine ⟨_, ?_, ⟨kvs2, hsub2, hpl, hid⟩⟩
              apply List.mem_append_left
              rw [List.mem_reverse]
              exact hmem
          · exact ⟨x, List.mem_append_right _ hxr, hch⟩
        have hsz2 : stackSize (xs.reverse ++ rest) < n := by
          rw [← hsz, stackSize_append, stackSize_reverse, stackSize_cons]
          have := stackSize_list_lt xs
          omega
        obtain ⟨d, hd, hpl, hid⟩ := ih _ hsz2 _ fb rfl hrec
        exact ⟨d, by simp only [ffplLoop]; exact hd, hpl, hid⟩
      | none =>
        have hrec : ∃ x ∈ rest, ContainsHinted hint x := by
          rcases List.mem_cons.mp hx with rfl | hxr
          · obtain ⟨kvs2, hsub, -, -⟩ := hch
            cases hsub
          · exact ⟨x, hxr, hch⟩
        have hsz2 : stackSize rest < n := by
          rw [← hsz]
          exact stackSize_lt_cons _ _
        obtain ⟨d, hd, hpl, hid⟩ := ih _ hsz2 _ fb rfl hrec
        exact ⟨d, by simp only [ffplLoop]; exact hd, hpl, hid⟩
      | str s =>
        have hrec : ∃ x ∈ rest, ContainsHinted hint x := by
          rcases List.mem_cons.mp hx with rfl | hxr
          · obtain ⟨kvs2, hsub, -, -⟩ := hch
            cases hsub
          · exact ⟨x, hxr, hch⟩
        have hsz2 : stackSize rest < n := by
          rw [← hsz]
          exact stackSize_lt_cons _ _
        obtain ⟨d, hd, hpl, hid⟩ := ih _ hsz2 _ fb rfl hrec
        exact ⟨d, by simp only [ffplLoop]; exact hd, hpl, hid⟩
      | int m =>
        have hrec : ∃ x ∈ rest, ContainsHinted hint x := by
          rcases List.mem_cons.mp hx with rfl | hxr
          · obtain ⟨kvs2, hsub, -, -⟩ := hch
            cases hsub
          · exact ⟨x, hxr, hch⟩
        have hsz2 : stackSize rest < n := by
          rw [← hsz]
          exact stackSize_lt_cons _ _
        obtain ⟨d, hd, hpl, hid⟩ := ih _ hsz2 _ fb rfl hrec
        exact ⟨d, by simp only [ffplLoop]; exact hd, hpl, hid⟩
      | bool b =>
        have hrec : ∃ x ∈ rest, ContainsHinted hint x := by
          rcases List.mem_cons.mp hx with rfl | hxr
          · obtain ⟨kvs2, hsub, -, -⟩ := hch
            cases hsub
          · exact ⟨x, hxr, hch⟩
        have hsz2 : stackSize rest < n := by
          rw [← hsz]
          exact stackSize_lt_cons _ _
        obtain ⟨d, hd, hpl, hid⟩ := ih _ hsz2 _ fb rfl hrec
        exact ⟨d, by simp only [ffplLoop]; exact hd, hpl, hid⟩

/-- C7: when a JSON structure contains an entity-like mapping whose
identifier string-equals the non-empty hint, `find_first_pin_like_dict`
returns a hint-matching entity-like mapping — regardless of traversal
order or of any other (non-hinted) matches; in particular, on a
structure with exactly two entity-like mappings with identifiers "1"
and "2" and hint "2", the returned mapping is the one with identifier
"2".  Contrapositively, a non-hinted result occurs only when no hinted
match exists anywhere in the structure. -/
theorem c7_hinted_match_precedence (v : PyVal) (hint : String) (hne : hint ≠ "")
    (hex : ContainsHinted hint v) :
    ∃ d, find_first_pin_like_dict v (some hint) = some d ∧
      pinLike d = true ∧ pyStr (dctGet d "id") = hint := by
  unfold find_first_pin_like_dict
  exact ffplLoop_finds hint hne _ [v] Option.none rfl ⟨v, List.mem_cons_self v [], hex⟩

/-- C7, witness: the two-mapping structure of the claim with hint "2". -/
theorem c7_hinted_match_precedence_witness :
    ∃ d, find_first_pin_like_dict
      (PyVal.list [PyVal.dict [("id", .str "1"), ("title", .str "a")],
                   PyVal.dict [("id", .str "2"), ("title", .str "b")]]) (some "2") = some d ∧
      pinLike d = true ∧ pyStr (dctGet d "id") = "2" :=
  c7_hinted_match_precedence _ "2" (by decide)
    ⟨[("id", .str "2"), ("title", .str "b")],
     SubVal.inList (List.mem_cons_of_mem _ (List.mem_cons_self _ _)) (SubVal.refl _),
     by decide, by decide⟩

/-! ## Claim C10 — Capture-Log Miner returns only hinted candidates -/

theorem huntClassify_sound {pid : String} (hne : pid ≠ "") {data : PyVal} {d : Dct}
    (h : huntClassify pid data = some d) :
    extract_closeup_from_json data = some d ∨
      (find_first_pin_like_dict data (some pid) = some d ∧ pyStr (dctGet d "id") = pid) := by
  unfold huntClassify at h
  rcases hc : extract_closeup_from_json data with _ | c <;> rw [hc] at h <;> dsimp only at h
  · rcases hf : find_first_pin_like_dict data (some pid) with _ | cand <;>
      rw [hf] at h <;> dsimp only at h
    · simp at h
    · by_cases hg : (pid == "" || pyStr (dctGet cand "id") == pid) = true
      · rw [if_pos hg] at h
        injection h with h
        subst h
        right
        refine ⟨rfl, ?_⟩
        simp only [Bool.or_eq_true, beq_iff_eq] at hg
        rcases hg with hg | hg
        · exact absurd hg hne
        · exact hg
      · rw [if_neg hg] at h
        simp at h
  · injection h with h
    subst h
    exact Or.inl rfl

theorem huntBody_sound {drv : Driver} {pid : String} (hne : pid ≠ "") {pkvs rkvs : Dct}
    {d : Dct} (h : huntBody drv pid pkvs rkvs = .ok (some d)) :
    ∃ raw data, drv.bodyText (dctGet pkvs "requestId") = .ok raw ∧
      drv.jloads (pyStrip raw) = .ok data ∧
      (extract_closeup_from_json data = some d ∨
        (find_first_pin_like_dict data (some pid) = some d ∧ pyStr (dctGet d "id") = pid)) := by
  unfold huntBody at h
  rcases hm : pyOr (dctGet rkvs "mimeType") (.str "") with _ | mimeRaw | _ | _ | _ | _ <;>
      rw [hm] at h <;> dsimp only at h <;> try simp at h
  by_cases hj : isSubstr "json" (pyLower mimeRaw) = true
  case neg => rw [if_neg hj] at h; simp at h
  rw [if_pos hj] at h
  by_cases hrq : truthy (dctGet pkvs "requestId") = true
  case neg => rw [if_neg hrq] at h; simp at h
  rw [if_pos hrq] at h
  rcases hb : drv.bodyText (dctGet pkvs "requestId") with ex | raw <;>
    rw [hb] at h <;> dsimp only at h
  · simp at h
  · by_cases hs : pyStartsWith (pyStrip raw) "\x7b" = true ∨ pyStartsWith (pyStrip raw) "[" = true
    case neg => rw [if_neg hs] at h; simp at h
    rw [if_pos hs] at h
    rcases hl : drv.jloads (pyStrip raw) with ex | data <;> rw [hl] at h <;> dsimp only at h
    · simp at h
    · exact ⟨raw, data, rfl, hl, huntClassify_sound hne (by simpa using h)⟩

theorem huntEntry_sound {drv : Driver} {pid : String} (hne : pid ≠ "") {e : PyVal} {d : Dct}
    (h : huntEntry drv pid e = .ok (some d)) :
    ∃ req raw data, drv.bodyText req = .ok raw ∧ drv.jloads (pyStrip raw) = .ok data ∧
      (extract_closeup_from_json data = some d ∨
        (find_first_pin_like_dict data (some pid) = some d ∧ pyStr (dctGet d "id") = pid)) := by
  unfold huntEntry at h
  repeat' split at h
  all_goals try simp at h
  all_goals
    obtain ⟨raw, data, h1, h2, h3⟩ := huntBody_sound hne h
  all_goals exact ⟨_, raw, data, h1, h2, h3⟩

theorem huntEntries_sound {drv : Driver} {pid : String} (hne : pid ≠ "") :
    ∀ (es : List PyVal) (d : Dct), huntEntries drv pid es = .ok (some d) →
      ∃ req raw data, drv.bodyText req = .ok raw ∧ drv.jloads (pyStrip raw) = .ok data ∧
        (extract_closeup_from_json data = some d ∨
          (find_first_pin_like_dict data (some pid) = some d ∧
            pyStr (dctGet d "id") = pid)) := by
  intro es
  induction es with
  | nil =>
    intro d h
    simp [huntEntries] at h
  | cons e es ih =>
    intro d h
    simp only [huntEntries] at h
    rcases he : huntEntry drv pid e with ex | oc <;> rw [he] at h
    · simp at h
    · rcases oc with _ | c
      · exact ih d h
      · injection h with h
        injection h with h
        subst h
        exact huntEntry_sound hne he

theorem huntEntries_all_none {drv : Driver} {pid : String} :
    ∀ es : List PyVal, (∀ e ∈ es, huntEntry drv pid e = .ok Option.none) →
      huntEntries drv pid es = .ok Option.none := by
  intro es
  induction es with
  | nil => intro; rfl
  | cons e es ih =>
    intro hall
    simp only [huntEntries]
    rw [hall e (List.mem_cons_self e es)]
    exact ih (fun x hx => hall x (List.mem_cons_of_mem e hx))

/-- C10: with a non-empty identifier hint, everything the Capture-Log
Miner returns stems from a body it actually fetched and parsed: the
returned dict is the detail-query extraction of that parsed payload,
or the generic pin-like candidate found in that payload — and a
generic candidate only when its identifier string-equals the hint.
And the miner keeps no non-matching fallback: when every scanned entry
of the log window classifies to nothing, it returns `None`. -/
theorem c10_cdp_miner_hint_only (drv : Driver) (pid : String) (hne : pid ≠ "") :
    (∀ d, hunt_json_in_cdp_logs drv pid = .ok (some d) →
      ∃ req raw data, drv.bodyText req = .ok raw ∧ drv.jloads (pyStrip raw) = .ok data ∧
        (extract_closeup_from_json data = some d ∨
          (find_first_pin_like_dict data (some pid) = some d ∧
            pyStr (dctGet d "id") = pid))) ∧
    (∀ logs, drv.getLog = .ok logs →
      (∀ e ∈ cdpWindow logs, huntEntry drv pid e = .ok Option.none) →
      hunt_json_in_cdp_logs drv pid = .ok Option.none) := by
  constructor
  · intro d h
    unfold hunt_json_in_cdp_logs at h
    rcases hl : drv.getLog with ex | logs <;> rw [hl] at h
    · simp at h
    · exact huntEntries_sound hne _ d h
  · intro logs hl hall
    unfold hunt_json_in_cdp_logs
    rw [hl]
    exact huntEntries_all_none _ hall

/-- C10, witness: one real log entry whose fetched body parses to a
pin-like candidate.  With identifier "2" under hint "2" the candidate
is returned and localized to the parsed body; with identifier "1" the
guard rejects it, the entry classifies to nothing and the miner
returns `None` — no fallback. -/
theorem c10_cdp_miner_hint_only_witness :
    (∃ req raw data, cdpHitDriver.bodyText req = .ok raw ∧
      cdpHitDriver.jloads (pyStrip raw) = .ok data ∧
      (extract_closeup_from_json data =
          some [("id", PyVal.str "2"), ("title", PyVal.str "t")] ∨
        (find_first_pin_like_dict data (some "2") =
            some [("id", PyVal.str "2"), ("title", PyVal.str "t")] ∧
          pyStr (dctGet [("id", PyVal.str "2"), ("title", PyVal.str "t")] "id") = "2"))) ∧
    hunt_json_in_cdp_logs cdpMissDriver "2" = .ok Option.none :=
  ⟨(c10_cdp_miner_hint_only cdpHitDriver "2" (by decide)).1
      [("id", PyVal.str "2"), ("title", PyVal.str "t")]
      (by simp +decide [hunt_json_in_cdp_logs, cdpHitDriver, emptyDriver, cdpWindow,
        huntEntries, huntEntry, cdpMsgStr, cdpEntry, cdpMsgVal, cdpBody, cdpPayloadHit,
        huntBody, huntClassify, extract_closeup_from_json, closeupHere, closeupChain,
        closeupWalk, find_first_pin_like_dict, ffplLoop, pinLike, hintMatch, dctGetD,
        dctGet, dctFind, dctHas, truthy, isStrEq, pyOr, pyStr, pyRepr, pyStrip, pyLower,
        pyStartsWith, isSubstr, listInfix, wsChar]),
   (c10_cdp_miner_hint_only cdpMissDriver "2" (by decide)).2 [cdpEntry] rfl
      (by
        intro e he
        simp [cdpWindow] at he
        subst he
        simp +decide [huntEntry, cdpMissDriver, emptyDriver, cdpMsgStr, cdpEntry,
          cdpMsgVal, cdpBody, cdpPayloadMiss, huntBody, huntClassify,
          extract_closeup_from_json, closeupHere, closeupChain, closeupWalk,
          find_first_pin_like_dict, ffplLoop, pinLike, hintMatch, dctGetD, dctGet,
          dctFind, dctHas, truthy, isStrEq, pyOr, pyStr, pyRepr, pyStrip, pyLower,
          pyStartsWith, isSubstr, listInfix, wsChar])⟩

/-! ## Claim C1 — merge writes only into empty fields -/

theorem noov_field {a b c : String} (h1 : b = a ∨ a = "") (h2 : c = b ∨ b = "") :
    c = a ∨ a = "" := by
  rcases h1 with h1 | h1
  · rcases h2 with h2 | h2
    · exact Or.inl (h2.trans h1)
    · exact Or.inr (h1 ▸ h2)
  · exact Or.inr h1

theorem noOv_comp {g h : Fields → Fields} (hg : NoOv g) (hh : NoOv h) :
    NoOv (fun f => h (g f)) := by
  intro f
  obtain ⟨a1, a2, a3, a4, a5, a6, a7, a8, a9, a10, a11, a12, a13, a14⟩ := hg f
  obtain ⟨b1, b2, b3, b4, b5, b6, b7, b8, b9, b10, b11, b12, b13, b14⟩ := hh (g f)
  exact ⟨noov_field a1 b1, noov_field a2 b2, noov_field a3 b3, noov_field a4 b4,
    noov_field a5 b5, noov_field a6 b6, noov_field a7 b7, noov_field a8 b8,
    noov_field a9 b9, noov_field a10 b10, noov_field a11 b11, noov_field a12 b12,
    noov_field a13 b13, noov_field a14 b14⟩

theorem noOv_tdc (close : Dct) : NoOv (enrichTitleDescCreated close) := by
  intro f
  simp only [enrichTitleDescCreated]
  split_ifs <;> simp_all

theorem noOv_agg (close : Dct) : NoOv (enrichAggCounts close) := by
  intro f
  simp only [enrichAggCounts]
  split <;> try simp
  split_ifs <;> simp_all

theorem noOv_repin (close : Dct) : NoOv (enrichRepin close) := by
  intro f
  simp only [enrichRepin]
  split_ifs <;> simp_all

theorem noOv_pinner (close : Dct) : NoOv (enrichPinner close) := by
  intro f
  simp only [enrichPinner]
  split <;> try simp
  split_ifs <;> simp_all

theorem noOv_outbound (close : Dct) : NoOv (enrichOutbound close) := by
  intro f
  simp only [enrichOutbound]
  split_ifs <;> simp_all

theorem enrichImgStep_frame (d : Dct) (f : Fields) :
    (enrichImgStep d f).title = f.title ∧
    (enrichImgStep d f).description = f.description ∧
    (enrichImgStep d f).created_at = f.created_at ∧
    ((enrichImgStep d f).image_width = f.image_width ∨ f.image_width = "") ∧
    ((enrichImgStep d f).image_height = f.image_height ∨ f.image_height = "") ∧
    (enrichImgStep d f).save_count = f.save_count ∧
    (enrichImgStep d f).comment_count = f.comment_count ∧
    (enrichImgStep d f).pinner_username = f.pinner_username ∧
    (enrichImgStep d f).pinner_fullname = f.pinner_fullname ∧
    (enrichImgStep d f).pinner_profile_url = f.pinner_profile_url ∧
    (enrichImgStep d f).board_name = f.board_name ∧
    (enrichImgStep d f).board_url = f.board_url ∧
    (enrichImgStep d f).outbound_link = f.outbound_link := by
  simp only [enrichImgStep]
  split_ifs <;> simp_all

theorem enrichImgLoop_frame (images : Dct) :
    ∀ (ks : List String) (f : Fields),
    (enrichImgLoop images ks f).title = f.title ∧
    (enrichImgLoop images ks f).description = f.description ∧
    (enrichImgLoop images ks f).created_at = f.created_at ∧
    ((enrichImgLoop images ks f).image_width = f.image_width ∨ f.image_width = "") ∧
    ((enrichImgLoop images ks f).image_height = f.image_height ∨ f.image_height = "") ∧
    (enrichImgLoop images ks f).save_count = f.save_count ∧
    (enrichImgLoop images ks f).comment_count = f.comment_count ∧
    (enrichImgLoop images ks f).pinner_username = f.pinner_username ∧
    (enrichImgLoop images ks f).pinner_fullname = f.pinner_fullname ∧
    (enrichImgLoop images ks f).pinner_profile_url = f.pinner_profile_url ∧
    (enrichImgLoop images ks f).board_name = f.board_name ∧
    (enrichImgLoop images ks f).board_url = f.board_url ∧
    (enrichImgLoop images ks f).outbound_link = f.outbound_link := by
  intro ks
  induction ks with
  | nil => intro f; simp [enrichImgLoop]
  | cons k ks ih =>
    intro f
    simp only [enrichImgLoop]
    split
    case h_1 d heq =>
      obtain ⟨s1, s2, s3, s4, s5, s6, s7, s8, s9, s10, s11, s12, s13⟩ :=
        enrichImgStep_frame d f
      split
      · exact ⟨s1, s2, s3, s4, s5, s6, s7, s8, s9, s10, s11, s12, s13⟩
      · obtain ⟨l1, l2, l3, l4, l5, l6, l7, l8, l9, l10, l11, l12, l13⟩ :=
          ih (enrichImgStep d f)
        refine ⟨l1.trans s1, l2.trans s2, l3.trans s3, noov_field s4 l4, noov_field s5 l5,
          l6.trans s6, l7.trans s7, l8.trans s8, l9.trans s9, l10.trans s10,
          l11.trans s11, l12.trans s12, l13.trans s13⟩
    case h_2 =>
      exact ih f

theorem noOv_images (close : Dct) : NoOv (enrichImages close) := by
  intro f
  unfold enrichImages
  by_cases hu : f.image_url = ""
  · rw [if_pos hu]
    split
    · rename_i images heq
      obtain ⟨l1, l2, l3, l4, l5, l6, l7, l8, l9, l10, l11, l12, l13⟩ :=
        enrichImgLoop_frame images sizeKeys f
      exact ⟨Or.inl l1, Or.inl l2, Or.inl l3, Or.inr hu, l4, l5, Or.inl l6, Or.inl l7,
        Or.inl l8, Or.inl l9, Or.inl l10, Or.inl l11, Or.inl l12, Or.inl l13⟩
    · simp
  · rw [if_neg hu]
    simp

theorem noOvE_board (close : Dct) :
    ∀ f f2 : Fields, enrichBoard close f = .ok f2 →
    (f2.title = f.title ∨ f.title = "") ∧
    (f2.description = f.description ∨ f.description = "") ∧
    (f2.created_at = f.created_at ∨ f.created_at = "") ∧
    (f2.image_url = f.image_url ∨ f.image_url = "") ∧
    (f2.image_width = f.image_width ∨ f.image_width = "") ∧
    (f2.image_height = f.image_height ∨ f.image_height = "") ∧
    (f2.save_count = f.save_count ∨ f.save_count = "") ∧
    (f2.comment_count = f.comment_count ∨ f.comment_count = "") ∧
    (f2.pinner_username = f.pinner_username ∨ f.pinner_username = "") ∧
    (f2.pinner_fullname = f.pinner_fullname ∨ f.pinner_fullname = "") ∧
    (f2.pinner_profile_url = f.pinner_profile_url ∨ f.pinner_profile_url = "") ∧
    (f2.board_name = f.board_name ∨ f.board_name = "") ∧
    (f2.board_url = f.board_url ∨ f.board_url = "") ∧
    (f2.outbound_link = f.outbound_link ∨ f.outbound_link = "") := by
  intro f f2 h
  unfold enrichBoard at h
  rcases hb : pyOr (dctGet close "board") (.dict []) with _ | _ | _ | _ | _ | board <;>
    rw [hb] at h <;> dsimp only at h
  all_goals try (injection h with h; subst h; simp; done)
  by_cases hn : f.board_name = "" <;>
    [rw [if_pos hn] at h; rw [if_neg hn] at h] <;> try dsimp only at h
  all_goals by_cases hu : f.board_url = "" <;>
    [rw [if_pos hu] at h; rw [if_neg hu] at h]
  all_goals try (injection h with h; subst h; simp_all; done)
  all_goals by_cases hc : truthy (pyOr (dctGet board "url") (.str "")) = true <;>
    [rw [if_pos hc] at h; rw [if_neg hc] at h]
  all_goals try (injection h with h; subst h; simp_all; done)
  all_goals
    rcases ho : pyOr (dctGet board "owner") (.dict []) with _ | _ | _ | _ | _ | owner <;>
      rw [ho] at h <;> dsimp only at h
  all_goals try (simp at h; done)
  all_goals by_cases hos : truthy (pyOr (dctGet owner "username") (.str "")) = true ∧
      truthy (pyOr (dctGet board "slug") (.str "")) = true <;>
    [rw [if_pos hos] at h; rw [if_neg hos] at h]
  all_goals (injection h with h; subst h; simp_all)

/-- C1: the Resolver Cascade merge `enrich_from_closeup_data` writes a
candidate value into a field only if that field is currently empty: for
every detail-query payload and working field-set, every field holding a
non-empty value on entry holds that same value, unchanged, in the
result. -/
theorem c1_merge_preserves_filled_fields (close : Dct) (f out : Fields)
    (h : enrich_from_closeup_data close f = .ok out) :
    (f.title ≠ "" → out.title = f.title) ∧
    (f.description ≠ "" → out.description = f.description) ∧
    (f.created_at ≠ "" → out.created_at = f.created_at) ∧
    (f.image_url ≠ "" → out.image_url = f.image_url) ∧
    (f.image_width ≠ "" → out.image_width = f.image_width) ∧
    (f.image_height ≠ "" → out.image_height = f.image_height) ∧
    (f.save_count ≠ "" → out.save_count = f.save_count) ∧
    (f.comment_count ≠ "" → out.comment_count = f.comment_count) ∧
    (f.pinner_username ≠ "" → out.pinner_username = f.pinner_username) ∧
    (f.pinner_fullname ≠ "" → out.pinner_fullname = f.pinner_fullname) ∧
    (f.pinner_profile_url ≠ "" → out.pinner_profile_url = f.pinner_profile_url) ∧
    (f.board_name ≠ "" → out.board_name = f.board_name) ∧
    (f.board_url ≠ "" → out.board_url = f.board_url) ∧
    (f.outbound_link ≠ "" → out.outbound_link = f.outbound_link) := by
  simp only [enrich_from_closeup_data] at h
  rcases hb : enrichBoard close (enrichPinner close (enrichRepin close
      (enrichAggCounts close (enrichTitleDescCreated close f)))) with e | f5 <;>
    rw [hb] at h <;> dsimp only at h
  · exact absurd h (by simp)
  · injection h with h
    subst h
    have hpre : NoOv (fun g => enrichPinner close (enrichRepin close
        (enrichAggCounts close (enrichTitleDescCreated close g)))) :=
      noOv_comp (noOv_comp (noOv_comp (noOv_tdc close) (noOv_agg close))
        (noOv_repin close)) (noOv_pinner close)
    have hpost : NoOv (fun g => enrichImages close (enrichOutbound close g)) :=
      noOv_comp (noOv_outbound close) (noOv_images close)
    obtain ⟨a1, a2, a3, a4, a5, a6, a7, a8, a9, a10, a11, a12, a13, a14⟩ := hpre f
    obtain ⟨b1, b2, b3, b4, b5, b6, b7, b8, b9, b10, b11, b12, b13, b14⟩ :=
      noOvE_board close _ f5 hb
    obtain ⟨c1, c2, c3, c4, c5, c6, c7, c8, c9, c10, c11, c12, c13, c14⟩ := hpost f5
    exact ⟨fun hne => (noov_field (noov_field a1 b1) c1).resolve_right hne,
      fun hne => (noov_field (noov_field a2 b2) c2).resolve_right hne,
      fun hne => (noov_field (noov_field a3 b3) c3).resolve_right hne,
      fun hne => (noov_field (noov_field a4 b4) c4).resolve_right hne,
      fun hne => (noov_field (noov_field a5 b5) c5).resolve_right hne,
      fun hne => (noov_field (noov_field a6 b6) c6).resolve_right hne,
      fun hne => (noov_field (noov_field a7 b7) c7).resolve_right hne,
      fun hne => (noov_field (noov_field a8 b8) c8).resolve_right hne,
      fun hne => (noov_field (noov_field a9 b9) c9).resolve_right hne,
      fun hne => (noov_field (noov_field a10 b10) c10).resolve_right hne,
      fun hne => (noov_field (noov_field a11 b11) c11).resolve_right hne,
      fun hne => (noov_field (noov_field a12 b12) c12).resolve_right hne,
      fun hne => (noov_field (noov_field a13 b13) c13).resolve_right hne,
      fun hne => (noov_field (noov_field a14 b14) c14).resolve_right hne⟩

/-- C1, witness: a payload offering a new title does not overwrite an
already-filled title. -/
theorem c1_merge_preserves_filled_fields_witness :
    ({ emptyFields with title := "kept" } : Fields).title ≠ "" ∧
    ({ emptyFields with title := "kept" } : Fields).title = "kept" :=
  ⟨by decide,
   (c1_merge_preserves_filled_fields [("gridTitle", PyVal.str "cand")]
      { emptyFields with title := "kept" } { emptyFields with title := "kept" }
      (by decide)).1 (by decide)⟩

/-! ## Claim C8 — image-size-tier selection -/

/-- C8, counterexample: both the step-4 image loop of `scrape_pin_detail`
(app.py lines 561-573) and the image block of `enrich_from_closeup_data`
(app.py lines 469-481) fall back per-component: a first tier without a
URL still donates its width — with `orig = (width 100, no url)` and
`564x = (url u, height 60, no width)` the extracted triple combines the
URL of `564x` with the width of `orig`, yet the claim says the three
values never mix tiers. -/
theorem c8_counterexample_mixed_tiers :
    scrapeImgLoop [("orig", PyVal.dict [("width", PyVal.str "100")]),
                   ("564x", PyVal.dict [("url", PyVal.str "u"), ("height", PyVal.str "60")])]
      sizeKeys ("", "", "") = ("u", "100", "60") ∧
    enrich_from_closeup_data
      [("images", PyVal.dict
        [("orig", PyVal.dict [("width", PyVal.str "100")]),
         ("564x", PyVal.dict [("url", PyVal.str "u"), ("height", PyVal.str "60")])])]
      emptyFields =
      .ok { emptyFields with image_url := "u", image_width := "100", image_height := "60" } ∧
    dctHas [("url", PyVal.str "u"), ("height", PyVal.str "60")] "width" = false ∧
    dctHas [("width", PyVal.str "100")] "url" = false := by
  decide

theorem pyStr_pyOr_empty (v : PyVal) : pyStr (pyOr v (.str "")) = strOfOr v "" := by
  unfold pyOr strOfOr
  split_ifs <;> simp [pyStr]

/-- C8 (amended): extraction iterates the fixed order orig, 564x, 474x,
236x, but only the rich variant takes URL, width and height together.
Part one: in the app.py step-4 loop, when the first size tier present
holds a non-empty URL string, the three values are taken together from
that tier (when an earlier tier lacks a URL its width/height may
persist and mix with a later tier, as the counterexample shows — the
same per-component fallback mixes tiers in `enrich_from_closeup_data`).
Part two: the rich-variant loop overwrites the whole triple per tier,
so its result never mixes — it is the initial triple or the three
values of one single tier. -/
theorem c8_first_tier_taken_together :
    (∀ (images : Dct) (ks : List String) (d : Dct) (u : String),
      firstPresentTier images ks = some d → dctGet d "url" = .str u → u ≠ "" →
      scrapeImgLoop images ks ("", "", "") =
        (u, strOfOr (dctGet d "width") "", strOfOr (dctGet d "height") "")) ∧
    (∀ (images : Dct) (ks : List String) (t0 : String × String × String),
      richImgLoop images ks t0 = t0 ∨
        ∃ k d, k ∈ ks ∧ dctGet images k = .dict d ∧
          richImgLoop images ks t0 =
            (pyStr (pyOr (dctGet d "url") (.str "")),
              pyStr (pyOr (dctGet d "width") (.str "")),
              pyStr (pyOr (dctGet d "height") (.str "")))) := by
  constructor
  · intro images ks d u hf hu hne
    induction ks with
    | nil => simp [firstPresentTier] at hf
    | cons k ks ih =>
      simp only [firstPresentTier] at hf
      simp only [scrapeImgLoop]
      split
      · rename_i d0 heq
        rw [heq] at hf
        dsimp only at hf
        injection hf with hf
        subst hf
        rw [hu]
        have hu1 : pyStr (pyOr (.str u) (.str "")) = u := by
          simp [pyOr, truthy, pyStr, hne]
        rw [hu1]
        rw [if_pos hne]
        rw [pyStr_pyOr_empty, pyStr_pyOr_empty]
      · rename_i hnd
        have : firstPresentTier images ks = some d := by
          rcases hdg : dctGet images k with _ | _ | _ | _ | _ | dd <;> rw [hdg] at hf
          · exact hf
          · exact hf
          · exact hf
          · exact hf
          · exact hf
          · exact (hnd dd hdg).elim
        exact ih this
  · intro images ks
    induction ks with
    | nil =>
      intro t0
      left
      rfl
    | cons k ks ih =>
      intro t0
      cases hk : dctGet images k with
      | dict d =>
        simp only [richImgLoop, hk]
        by_cases hu : pyStr (pyOr (dctGet d "url") (.str "")) ≠ ""
        · rw [if_pos hu]
          right
          exact ⟨k, d, List.mem_cons_self _ _, hk, rfl⟩
        · rw [if_neg hu]
          rcases ih (pyStr (pyOr (dctGet d "url") (.str "")),
              pyStr (pyOr (dctGet d "width") (.str "")),
              pyStr (pyOr (dctGet d "height") (.str ""))) with h0 | ⟨k2, d2, h1, h2, h3⟩
          · right
            exact ⟨k, d, List.mem_cons_self _ _, hk, h0⟩
          · right
            exact ⟨k2, d2, List.mem_cons_of_mem _ h1, h2, h3⟩
      | none =>
        simp only [richImgLoop, hk]
        rcases ih t0 with h0 | ⟨k2, d2, h1, h2, h3⟩
        · exact Or.inl h0
        · exact Or.inr ⟨k2, d2, List.mem_cons_of_mem _ h1, h2, h3⟩
      | str s =>
        simp only [richImgLoop, hk]
        rcases ih t0 with h0 | ⟨k2, d2, h1, h2, h3⟩
        · exact Or.inl h0
        · exact Or.inr ⟨k2, d2, List.mem_cons_of_mem _ h1, h2, h3⟩
      | int n =>
        simp only [richImgLoop, hk]
        rcases ih t0 with h0 | ⟨k2, d2, h1, h2, h3⟩
        · exact Or.inl h0
        · exact Or.inr ⟨k2, d2, List.mem_cons_of_mem _ h1, h2, h3⟩
      | bool b =>
        simp only [richImgLoop, hk]
        rcases ih t0 with h0 | ⟨k2, d2, h1, h2, h3⟩
        · exact Or.inl h0
        · exact Or.inr ⟨k2, d2, List.mem_cons_of_mem _ h1, h2, h3⟩
      | list xs =>
        simp only [richImgLoop, hk]
        rcases ih t0 with h0 | ⟨k2, d2, h1, h2, h3⟩
        · exact Or.inl h0
        · exact Or.inr ⟨k2, d2, List.mem_cons_of_mem _ h1, h2, h3⟩

/-- C8, witness: a complete first tier is taken as a whole by the step-4
loop, and the result of the rich loop on the same images is tier-coherent. -/
theorem c8_first_tier_taken_together_witness :
    scrapeImgLoop [("orig", PyVal.dict
        [("url", PyVal.str "U"), ("width", PyVal.str "10"), ("height", PyVal.str "20")])]
      sizeKeys ("", "", "") = ("U", "10", "20") ∧
    (richImgLoop [("orig", PyVal.dict
        [("url", PyVal.str "U"), ("width", PyVal.str "10"), ("height", PyVal.str "20")])]
      sizeKeys ("", "", "") = ("", "", "") ∨
      ∃ k d, k ∈ sizeKeys ∧
        dctGet [("orig", PyVal.dict
          [("url", PyVal.str "U"), ("width", PyVal.str "10"), ("height", PyVal.str "20")])]
          k = .dict d ∧
        richImgLoop [("orig", PyVal.dict
          [("url", PyVal.str "U"), ("width", PyVal.str "10"), ("height", PyVal.str "20")])]
          sizeKeys ("", "", "") =
          (pyStr (pyOr (dctGet d "url") (.str "")),
            pyStr (pyOr (dctGet d "width") (.str "")),
            pyStr (pyOr (dctGet d "height") (.str "")))) :=
  ⟨c8_first_tier_taken_together.1 _ sizeKeys
    [("url", PyVal.str "U"), ("width", PyVal.str "10"), ("height", PyVal.str "20")]
    "U" rfl rfl (by decide),
   c8_first_tier_taken_together.2 _ sizeKeys ("", "", "")⟩

/-! ## Claims C4 and C5 — Listing Crawler termination -/

theorem crawl_idle_run (view : Nat → List String) (limit : Nat) (hl : 1 ≤ limit)
    (hv : ∀ i, view i = []) :
    ∀ (n k i sc st : Nat), k + n = 6 →
      crawlLoop view limit ⟨[], [], k, i, sc, st⟩ =
        ⟨[], [], 6, i + n, sc + n, st⟩ := by
  intro n
  induction n with
  | zero =>
    intro k i sc st hk
    have hk6 : k = 6 := by omega
    subst hk6
    rw [crawlLoop, dif_neg (by simp)]
    simp
  | succ n ih =>
    intro k i sc st hk
    have hkl : k < 6 := by omega
    have hg : (⟨[], [], k, i, sc, st⟩ : CrawlSt).collected.length < limit ∧
        (⟨[], [], k, i, sc, st⟩ : CrawlSt).noGrowth < 6 := ⟨by simpa using hl, hkl⟩
    rw [crawlLoop, dif_pos hg]
    have hnotle : ¬ (limit ≤ 0) := by omega
    have hit : crawlIterate view limit ⟨[], [], k, i, sc, st⟩ =
        ⟨[], [], k + 1, i + 1, sc + 1, st⟩ := by
      simp [crawlIterate, hv, extractView, addBatch, hnotle]
    rw [hit]
    rw [ih (k + 1) (i + 1) (sc + 1) st (by omega)]
    simp only [CrawlSt.mk.injEq]
    refine ⟨trivial, trivial, trivial, by omega, by omega, trivial⟩

/-- C5: with a target count of at least one and a source that never
yields any reference, the crawler loop runs exactly 6 idle iterations
(each performing its scroll) and then terminates — the final state has
iteration count 6 and idle counter 6, and no reference was collected. -/
theorem c5_six_idle_iterations (view : Nat → List String) (limit : Nat)
    (hl : 1 ≤ limit) (hv : ∀ i, view i = []) :
    collect_pin_urls_for_keyword view limit =
      { collected := [], seen := [], noGrowth := 6, iter := 6, scrolls := 6,
        scrollsAtTarget := 0 } ∧
    collectedRefs view limit = [] := by
  have h : crawlLoop view limit crawlInit =
      { collected := [], seen := [], noGrowth := 6, iter := 6, scrolls := 6,
        scrollsAtTarget := 0 } := by
    have h0 := crawl_idle_run view limit hl hv 6 0 0 0 0 rfl
    simpa [crawlInit] using h0
  refine ⟨h, ?_⟩
  unfold collectedRefs collect_pin_urls_for_keyword
  rw [h]
  simp

/-- C5, witness. -/
theorem c5_six_idle_iterations_witness :
    collect_pin_urls_for_keyword (fun _ => ([] : List String)) 3 =
      { collected := [], seen := [], noGrowth := 6, iter := 6, scrolls := 6,
        scrollsAtTarget := 0 } ∧
    collectedRefs (fun _ => ([] : List String)) 3 = [] :=
  c5_six_idle_iterations _ 3 (by decide) (fun _ => rfl)

/-- C4, counterexample: the spec says the crawler performs no extra
scroll step after the target count is reached, but `scroll_results` is
called unconditionally at the end of every loop iteration, including
the iteration that collects the N-th reference — with one reference on
the first view and a target of 1, one scroll happens while the
collection is already at target. -/
theorem c4_counterexample_trailing_scroll :
    (collect_pin_urls_for_keyword (fun _ => ["https://x/pin/1/"]) 1).scrollsAtTarget = 1 ∧
    collectedRefs (fun _ => ["https://x/pin/1/"]) 1 = ["https://x/pin/1/"] := by
  have h : collect_pin_urls_for_keyword (fun _ => ["https://x/pin/1/"]) 1 =
      ⟨["https://x/pin/1/"], ["https://x/pin/1/"], 0, 1, 1, 1⟩ := by
    rw [collect_pin_urls_for_keyword, crawlLoop, dif_pos (by decide), crawlLoop,
      dif_neg (by decide)]
    rfl
  rw [collectedRefs, h]
  exact ⟨rfl, rfl⟩

/-- C4 (amended): for every source and target, an iteration that
reaches the target count is the last one — the loop terminates with the
state that iteration produced, performing no further iteration and
hence no further scroll; but that final iteration itself ends with one
scroll executed after the target count is already reached. -/
theorem c4_reaching_iteration_is_last (view : Nat → List String) (limit : Nat)
    (s : CrawlSt) (hc : s.collected.length < limit) (hn : s.noGrowth < 6)
    (hr : limit ≤ (crawlIterate view limit s).collected.length) :
    crawlLoop view limit s = crawlIterate view limit s ∧
    (crawlLoop view limit s).scrolls = s.scrolls + 1 ∧
    (crawlLoop view limit s).scrollsAtTarget = s.scrollsAtTarget + 1 := by
  have hstop : ¬ ((crawlIterate view limit s).collected.length < limit ∧
      (crawlIterate view limit s).noGrowth < 6) := by
    rintro ⟨h1, -⟩
    omega
  have hloop : crawlLoop view limit s = crawlIterate view limit s := by
    rw [crawlLoop, dif_pos ⟨hc, hn⟩, crawlLoop, dif_neg hstop]
  refine ⟨hloop, ?_, ?_⟩
  · rw [hloop]
    simp only [crawlIterate]
  · rw [hloop]
    simp only [crawlIterate] at hr ⊢
    rw [if_pos hr]

/-- C4, witness. -/
theorem c4_reaching_iteration_is_last_witness :
    crawlLoop (fun _ => ["https://x/pin/1/"]) 1 crawlInit =
      crawlIterate (fun _ => ["https://x/pin/1/"]) 1 crawlInit ∧
    (crawlLoop (fun _ => ["https://x/pin/1/"]) 1 crawlInit).scrolls = crawlInit.scrolls + 1 ∧
    (crawlLoop (fun _ => ["https://x/pin/1/"]) 1 crawlInit).scrollsAtTarget =
      crawlInit.scrollsAtTarget + 1 :=
  c4_reaching_iteration_is_last (fun _ => ["https://x/pin/1/"]) 1 crawlInit
    (by decide) (by decide) (by decide)

/-! ## Claim C9 — first-occurrence deduplication -/

theorem dropDup_append (seen : List String) (as bs : List PinRow) :
    dropDupByUrl seen (as ++ bs) =
      dropDupByUrl seen as ++ dropDupByUrl (seenAfter seen as) bs := by
  induction as generalizing seen with
  | nil => simp [dropDupByUrl, seenAfter]
  | cons a as ih =>
    by_cases h : a.pin_url ∈ seen
    · simp [dropDupByUrl, seenAfter, h, ih]
    · simp [dropDupByUrl, seenAfter, h, ih]

theorem dropDup_mem_not_seen (seen : List String) (rows : List PinRow) :
    ∀ r ∈ dropDupByUrl seen rows, r ∈ rows ∧ r.pin_url ∉ seen := by
  induction rows generalizing seen with
  | nil => simp [dropDupByUrl]
  | cons a as ih =>
    intro r hr
    by_cases h : a.pin_url ∈ seen
    · rw [show dropDupByUrl seen (a :: as) = dropDupByUrl seen as by
        simp [dropDupByUrl, h]] at hr
      rcases ih seen r hr with ⟨h1, h2⟩
      exact ⟨List.mem_cons_of_mem _ h1, h2⟩
    · rw [show dropDupByUrl seen (a :: as) =
        a :: dropDupByUrl (a.pin_url :: seen) as by simp [dropDupByUrl, h]] at hr
      rcases List.mem_cons.mp hr with rfl | hr2
      · exact ⟨List.mem_cons_self _ _, h⟩
      · rcases ih _ r hr2 with ⟨h1, h2⟩
        exact ⟨List.mem_cons_of_mem _ h1, fun hc => h2 (List.mem_cons_of_mem _ hc)⟩

theorem dropDup_sublist (seen : List String) (rows : List PinRow) :
    (dropDupByUrl seen rows).Sublist rows := by
  induction rows generalizing seen with
  | nil => simp [dropDupByUrl]
  | cons a as ih =>
    by_cases h : a.pin_url ∈ seen
    · rw [show dropDupByUrl seen (a :: as) = dropDupByUrl seen as by
        simp [dropDupByUrl, h]]
      exact (ih seen).cons a
    · rw [show dropDupByUrl seen (a :: as) =
        a :: dropDupByUrl (a.pin_url :: seen) as by simp [dropDupByUrl, h]]
      exact (ih _).cons₂ a

theorem seenAfter_mono (as : List PinRow) :
    ∀ seen, ∀ u ∈ seen, u ∈ seenAfter seen as := by
  induction as with
  | nil => intro seen u hu; simpa [seenAfter] using hu
  | cons a as ih =>
    intro seen u hu
    by_cases h : a.pin_url ∈ seen
    · rw [show seenAfter seen (a :: as) = seenAfter seen as by simp [seenAfter, h]]
      exact ih seen u hu
    · rw [show seenAfter seen (a :: as) = seenAfter (a.pin_url :: seen) as by
        simp [seenAfter, h]]
      exact ih _ u (List.mem_cons_of_mem _ hu)

theorem seenAfter_mem_row (as : List PinRow) :
    ∀ seen, ∀ r ∈ as, r.pin_url ∈ seenAfter seen as := by
  induction as with
  | nil => intro seen r hr; exact absurd hr (List.not_mem_nil r)
  | cons a as ih =>
    intro seen r hr
    by_cases h : a.pin_url ∈ seen
    · rw [show seenAfter seen (a :: as) = seenAfter seen as by simp [seenAfter, h]]
      rcases List.mem_cons.mp hr with rfl | hr2
      · exact seenAfter_mono as seen r.pin_url h
      · exact ih seen r hr2
    · rw [show seenAfter seen (a :: as) = seenAfter (a.pin_url :: seen) as by
        simp [seenAfter, h]]
      rcases List.mem_cons.mp hr with rfl | hr2
      · exact seenAfter_mono as _ r.pin_url (List.mem_cons_self _ _)
      · exact ih _ r hr2

theorem dropDup_keeps_first (xs : List PinRow) (r1 : PinRow) (rest : List PinRow) :
    ∀ seen, r1.pin_url ∉ seen → (∀ x ∈ xs, x.pin_url ≠ r1.pin_url) →
      r1 ∈ dropDupByUrl seen (xs ++ r1 :: rest) := by
  induction xs with
  | nil =>
    intro seen hs _
    rw [show dropDupByUrl seen ([] ++ r1 :: rest) =
      r1 :: dropDupByUrl (r1.pin_url :: seen) rest by simp [dropDupByUrl, hs]]
    exact List.mem_cons_self _ _
  | cons x xs ih =>
    intro seen hs hx
    by_cases h : x.pin_url ∈ seen
    · rw [show dropDupByUrl seen ((x :: xs) ++ r1 :: rest) =
        dropDupByUrl seen (xs ++ r1 :: rest) by simp [dropDupByUrl, h]]
      exact ih seen hs (fun y hy => hx y (List.mem_cons_of_mem _ hy))
    · rw [show dropDupByUrl seen ((x :: xs) ++ r1 :: rest) =
        x :: dropDupByUrl (x.pin_url :: seen) (xs ++ r1 :: rest) by
          simp [dropDupByUrl, h]]
      refine List.mem_cons_of_mem _ (ih _ ?_ (fun y hy => hx y (List.mem_cons_of_mem _ hy)))
      intro hc
      rcases List.mem_cons.mp hc with he | hseen
      · exact hx x (List.mem_cons_self _ _) he.symm
      · exact hs hseen

/-- C9: the final deduplication by `pin_url` keeps the first-seen
occurrence and is stable and order-preserving: for any row list holding
a row `r1` and, later, a different row `r2` with the same `pin_url`
(and no earlier row with that url), the output contains `r1`, does not
contain `r2`, and is a sublist of the input — so output order is the
order of first occurrence, not last-write-wins. -/
theorem c9_dedup_keeps_first_occurrence (xs ys zs : List PinRow) (r1 r2 : PinRow)
    (hurl : r1.pin_url = r2.pin_url) (hne : r1 ≠ r2)
    (hx : ∀ x ∈ xs, x.pin_url ≠ r1.pin_url) :
    r1 ∈ drop_duplicates_by_pin_url (xs ++ r1 :: (ys ++ r2 :: zs)) ∧
    r2 ∉ drop_duplicates_by_pin_url (xs ++ r1 :: (ys ++ r2 :: zs)) ∧
    (drop_duplicates_by_pin_url (xs ++ r1 :: (ys ++ r2 :: zs))).Sublist
      (xs ++ r1 :: (ys ++ r2 :: zs)) := by
  refine ⟨dropDup_keeps_first xs r1 _ [] (by simp) hx, ?_, dropDup_sublist [] _⟩
  intro hmem
  rw [show xs ++ r1 :: (ys ++ r2 :: zs) = (xs ++ [r1]) ++ (ys ++ r2 :: zs) by simp] at hmem
  rw [drop_duplicates_by_pin_url, dropDup_append] at hmem
  rcases List.mem_append.mp hmem with h1 | h2
  · rcases dropDup_mem_not_seen [] _ r2 h1 with ⟨hin, -⟩
    rcases List.mem_append.mp hin with hinx | hinr
    · exact hx r2 hinx hurl.symm
    · rcases List.mem_cons.mp hinr with he | hnil
      · exact hne he.symm
      · exact absurd hnil (List.not_mem_nil r2)
  · rcases dropDup_mem_not_seen _ _ r2 h2 with ⟨-, hns⟩
    apply hns
    rw [← hurl]
    exact seenAfter_mem_row (xs ++ [r1]) [] r1 (by simp)

/-- C9, witness. -/
theorem c9_dedup_keeps_first_occurrence_witness :
    (⟨"k", "https://p/1/", "1", "first", "", "", "", "", "", "", "", "", "", "", "", "",
        ""⟩ : PinRow) ∈
      drop_duplicates_by_pin_url
        [⟨"k", "https://p/1/", "1", "first", "", "", "", "", "", "", "", "", "", "", "",
          "", ""⟩,
         ⟨"k", "https://p/1/", "1", "second", "", "", "", "", "", "", "", "", "", "", "",
          "", ""⟩] ∧
    (⟨"k", "https://p/1/", "1", "second", "", "", "", "", "", "", "", "", "", "", "", "",
        ""⟩ : PinRow) ∉
      drop_duplicates_by_pin_url
        [⟨"k", "https://p/1/", "1", "first", "", "", "", "", "", "", "", "", "", "", "",
          "", ""⟩,
         ⟨"k", "https://p/1/", "1", "second", "", "", "", "", "", "", "", "", "", "", "",
          "", ""⟩] ∧
    (drop_duplicates_by_pin_url
        [⟨"k", "https://p/1/", "1", "first", "", "", "", "", "", "", "", "", "", "", "",
          "", ""⟩,
         ⟨"k", "https://p/1/", "1", "second", "", "", "", "", "", "", "", "", "", "", "",
          "", ""⟩]).Sublist
      [⟨"k", "https://p/1/", "1", "first", "", "", "", "", "", "", "", "", "", "", "", "",
        ""⟩,
       ⟨"k", "https://p/1/", "1", "second", "", "", "", "", "", "", "", "", "", "", "",
        "", ""⟩] :=
  c9_dedup_keeps_first_occurrence [] [] []
    ⟨"k", "https://p/1/", "1", "first", "", "", "", "", "", "", "", "", "", "", "", "", ""⟩
    ⟨"k", "https://p/1/", "1", "second", "", "", "", "", "", "", "", "", "", "", "", "", ""⟩
    rfl (by decide) (by simp)

/-! ## Claim C3 — uniform empty-string defaults -/

/-- C3, counterexample: in the rich-variant resolver
(pinterest_scraper_rich.py lines 204-207) the title is
`str(pin_dict.get("grid_title")) or ...`: a missing `grid_title` turns
into `str(None)`, the truthy placeholder string "None", which also
suppresses the `if not title:` meta fallback — so absence is not
represented uniformly as the empty string in that cited resolver. -/
theorem c3_counterexample_rich_none_title :
    richTitle [] = "None" ∧ richTitleFinal [] "Meta Title" = "None" :=
  ⟨rfl, rfl⟩

/-- C3 (amended): in app.py resolver runs, every field of the returned
record is a `String` (by the type of `PinRow`) and every unresolved
field is exactly the empty string: when no probe, fetch or parse
contributes anything, the resolver returns the record whose identity
fields are the inputs and whose every other field is `""`.  The rich
variant breaks the uniformity for the title, whose unresolved value is
the placeholder "None" (see the counterexample). -/
theorem c3_unresolved_fields_are_empty_strings (kw url : String) :
    scrape_pin_detail emptyDriver url kw = .ok
      { keyword := kw, pin_url := url, pin_id := parse_pin_id url,
        title := "", description := "", image_url := "", image_width := "",
        image_height := "", save_count := "", comment_count := "",
        pinner_username := "", pinner_fullname := "", pinner_profile_url := "",
        board_name := "", board_url := "", outbound_link := "", created_at := "" } := by
  rfl

/-! ## Claim C2 — failure semantics of the resolver cascade -/

/-- C2, counterexample: the spec says the cascade itself cannot fail,
but `retry_stale` re-raises `StaleElementReferenceException` on its
final unwrapped attempt, and `scrape_pin_detail` wraps none of its
`retry_stale` call sites in a further handler: a driver whose `h1`
lookup is persistently stale propagates the exception out of
`scrape_pin_detail`. -/
theorem c2_counterexample_stale_escapes :
    scrape_pin_detail staleTitleDriver "https://www.pinterest.com/pin/9/" "kw" =
      .error .stale := by
  rfl

theorem exc_bind_ok {α β : Type} (a : α) (f : α → Except Exc β) :
    (Except.ok a >>= f : Except Exc β) = f a := rfl

theorem exc_bind_err {α β : Type} (e : Exc) (f : α → Except Exc β) :
    (Except.error e >>= f : Except Exc β) = Except.error e := rfl

theorem foldl_fixed {α β : Type} (f : α → β → α) (hf : ∀ a b, f a b = a) :
    ∀ (l : List β) (a : α), l.foldl f a = a := by
  intro l
  induction l with
  | nil => intro a; rfl
  | cons b bs ih =>
    intro a
    rw [List.foldl_cons, hf]
    exact ih a

theorem retryGo_ok {α : Type} (fn : Nat → Except Exc α)
    (h : ∀ i, ∃ s, fn i = .ok s) : ∀ n i, ∃ s, retry_stale.retryGo fn n i = .ok s := by
  intro n
  induction n with
  | zero =>
    intro i
    simpa [retry_stale.retryGo] using h i
  | succ n ih =>
    intro i
    obtain ⟨s, hs⟩ := h i
    exact ⟨s, by simp [retry_stale.retryGo, hs]⟩

theorem retry_stale_ok {α : Type} (fn : Nat → Except Exc α)
    (h : ∀ i, ∃ s, fn i = .ok s) : ∃ s, retry_stale fn = .ok s := by
  simpa [retry_stale] using retryGo_ok fn h 3 0

theorem get_text_safe_ok (drv : Driver)
    (h5 : ∀ css i, (∃ s, drv.cssText css i = .ok s) ∨
      drv.cssText css i = .error .noSuchElement)
    (css : String) (i : Nat) : ∃ s, get_text_safe drv css i = .ok s := by
  rcases h5 css i with ⟨s, hs⟩ | hs
  · exact ⟨pyStrip s, by simp [get_text_safe, hs]⟩
  · exact ⟨"", by simp [get_text_safe, hs]⟩

theorem attr_safe_ok (drv : Driver)
    (h6 : ∀ css attr i, (∃ s, drv.cssAttr css attr i = .ok s) ∨
      drv.cssAttr css attr i = .error .noSuchElement)
    (css attr : String) (i : Nat) : ∃ s, attr_safe drv css attr i = .ok s := by
  rcases h6 css attr i with ⟨s, hs⟩ | hs
  · exact ⟨s, by simp [attr_safe, hs]⟩
  · exact ⟨"", by simp [attr_safe, hs]⟩

theorem text_from_meta_ok (drv : Driver)
    (h4 : ∀ name b, (∃ s, drv.metaContent name b = .ok s) ∨
      drv.metaContent name b = .error .noSuchElement)
    (name : String) (b : Bool) : ∃ s, text_from_meta drv name b = .ok s := by
  rcases h4 name b with ⟨s, hs⟩ | hs
  · exact ⟨s, by simp [text_from_meta, hs]⟩
  · exact ⟨"", by simp [text_from_meta, hs]⟩

theorem orElseStr_ok (x : Except Exc String) (y : Unit → Except Exc String)
    (hx : ∃ s, x = .ok s) (hy : ∃ t, y () = .ok t) : ∃ w, orElseStr x y = .ok w := by
  obtain ⟨s, hs⟩ := hx
  subst hs
  by_cases h : s ≠ ""
  · exact ⟨s, by simp only [orElseStr]; rw [if_pos h]⟩
  · obtain ⟨t, ht⟩ := hy
    exact ⟨t, by simp only [orElseStr]; rw [if_neg h]; exact ht⟩

theorem huntEntry_jfail (drv : Driver) (hj : ∀ s, drv.jloads s = .error ())
    (pid : String) (e : PyVal) : huntEntry drv pid e = .ok Option.none := by
  cases hm : cdpMsgStr e with
  | none => simp [huntEntry, hm]
  | some s => simp [huntEntry, hm, hj]

theorem huntEntries_jfail (drv : Driver) (hj : ∀ s, drv.jloads s = .error ())
    (pid : String) : ∀ es, huntEntries drv pid es = .ok Option.none := by
  intro es
  induction es with
  | nil => rfl
  | cons e es ih => simp [huntEntries, huntEntry_jfail drv hj pid, ih]

theorem hunt_cdp_jfail (drv : Driver) (hj : ∀ s, drv.jloads s = .error ())
    (pid : String) : hunt_json_in_cdp_logs drv pid = .ok Option.none := by
  cases hlog : drv.getLog with
  | error e => simp [hunt_json_in_cdp_logs, hlog]
  | ok logs => simp [hunt_json_in_cdp_logs, hlog, huntEntries_jfail drv hj pid]

theorem scriptBlobStep_jfail (drv : Driver) (hj : ∀ s, drv.jloads s = .error ())
    (acc : List PyVal) (sres : Except Exc (String × String)) :
    scriptBlobStep drv acc sres = acc := by
  simp [scriptBlobStep, hj, foldl_fixed (fun (a : List PyVal) (_ : String) => a)
    (fun _ _ => rfl)]

theorem hunt_scripts_jfail (drv : Driver) (hj : ∀ s, drv.jloads s = .error ())
    (ss : List (Except Exc (String × String))) (hss : drv.scripts = .ok ss)
    (html : String) (hp : drv.pageSource = .ok html) :
    hunt_json_in_scripts drv = .ok [] := by
  have hblobs : ss.foldl (scriptBlobStep drv) [] = [] :=
    foldl_fixed _ (scriptBlobStep_jfail drv hj) ss []
  simp [hunt_json_in_scripts, hss, hp, hblobs, hj,
    foldl_fixed (fun (a : List PyVal) (_ : String) => a) (fun _ _ => rfl)]

theorem step2Cdp_jfail (drv : Driver) (hj : ∀ s, drv.jloads s = .error ())
    (pid : String) (pd : Dct) : step2Cdp drv pid pd = .ok pd := by
  rw [step2Cdp, hunt_cdp_jfail drv hj pid]
  split <;> rfl

theorem step3Scripts_jfail (drv : Driver) (hj : ∀ s, drv.jloads s = .error ())
    (ss : List (Except Exc (String × String))) (hss : drv.scripts = .ok ss)
    (html : String) (hp : drv.pageSource = .ok html)
    (pid : String) (pd : Dct) : step3Scripts drv pid pd = .ok pd := by
  rw [step3Scripts, hunt_scripts_jfail drv hj ss hss html hp]
  simp [step3ScanBlobs]

theorem step5Closeup_jfail (drv : Driver) (hj : ∀ s, drv.jloads s = .error ())
    (ss : List (Except Exc (String × String))) (hss : drv.scripts = .ok ss)
    (html : String) (hp : drv.pageSource = .ok html)
    (f : Fields) : step5Closeup drv f = .ok f := by
  have hg : get_closeup_data_from_any drv = .ok Option.none := by
    simp [get_closeup_data_from_any, hunt_cdp_jfail drv hj,
      hunt_scripts_jfail drv hj ss hss html hp, firstCloseup]
  simp [step5Closeup, hg]

theorem parse_compact_oo (s : String) :
    (∃ v, parse_compact_number s = .ok v) ∨
      parse_compact_number s = .error .overflow := by
  rw [parse_compact_number]
  cases hn : numSearch (pyStrip s).data with
  | none => exact .inl ⟨"", by simp [hn]⟩
  | some rs =>
    obtain ⟨run, suf⟩ := rs
    cases hf : floatRun (run.filter (fun c => !decide (c = ','))) with
    | none => exact .inl ⟨"", by simp [hn, hf]⟩
    | some nk =>
      by_cases hov : nk.1 * sufMul suf ≤ dblMaxNat * 10 ^ nk.2
      · exact .inl ⟨toString (nk.1 * sufMul suf / 10 ^ nk.2), by simp [hn, hf, hov]⟩
      · exact .inr (by simp [hn, hf, hov])

theorem exc_pure_bind {α β : Type} (a : α) (f : α → Except Exc β) :
    ((pure a : Except Exc α) >>= f) = f a := rfl

theorem fbTitle_ok (drv : Driver)
    (tfm : ∀ name b, ∃ s, text_from_meta drv name b = .ok s)
    (gts : ∀ css i, ∃ s, get_text_safe drv css i = .ok s)
    (f : Fields) : ∃ g, fbTitle drv f = .ok g := by
  rw [fbTitle]
  by_cases hc : f.title = ""
  · rw [if_pos hc]
    obtain ⟨t, ht⟩ := orElseStr_ok _ (fun _ => text_from_meta drv "twitter:title" false)
      (tfm "og:title" true) (tfm "twitter:title" false)
    rw [ht, exc_bind_ok]
    by_cases h2 : t ≠ ""
    · rw [if_pos h2]
      exact ⟨_, rfl⟩
    · rw [if_neg h2]
      obtain ⟨t2, ht2⟩ := orElseStr_ok _
        (fun _ => retry_stale fun i => get_text_safe drv "h2" i)
        (retry_stale_ok _ (fun i => gts "h1" i)) (retry_stale_ok _ (fun i => gts "h2" i))
      rw [ht2, exc_bind_ok]
      exact ⟨_, rfl⟩
  · rw [if_neg hc]
    exact ⟨f, rfl⟩

theorem fbDesc_ok (drv : Driver)
    (tfm : ∀ name b, ∃ s, text_from_meta drv name b = .ok s)
    (f : Fields) : ∃ g, fbDesc drv f = .ok g := by
  rw [fbDesc]
  by_cases hc : f.description = ""
  · rw [if_pos hc]
    obtain ⟨d, hd⟩ := orElseStr_ok _ (fun _ => text_from_meta drv "description" false)
      (tfm "og:description" true) (tfm "description" false)
    rw [hd, exc_bind_ok]
    exact ⟨_, rfl⟩
  · rw [if_neg hc]
    exact ⟨f, rfl⟩

theorem fbImage_ok (drv : Driver)
    (tfm : ∀ name b, ∃ s, text_from_meta drv name b = .ok s)
    (f : Fields) : ∃ g, fbImage drv f = .ok g := by
  have htail : ∀ f1 : Fields, ∃ g,
      ((if f1.image_url = "" ∨ f1.image_width = "" ∨ f1.image_height = "" then
        match retry_stale drv.findImg with
        | .error _ => pure f1
        | .ok img =>
          let f2 := if f1.image_url = "" then { f1 with image_url := extract_image_src img }
            else f1
          let f3 := if f2.image_width = "" then { f2 with image_width := img.width } else f2
          pure (if f3.image_height = "" then { f3 with image_height := img.height } else f3)
      else pure f1 : Except Exc Fields)) = .ok g := by
    intro f1
    by_cases hc2 : f1.image_url = "" ∨ f1.image_width = "" ∨ f1.image_height = ""
    · rw [if_pos hc2]
      cases hr : retry_stale drv.findImg with
      | error e => exact ⟨f1, rfl⟩
      | ok img => exact ⟨_, rfl⟩
    · rw [if_neg hc2]
      exact ⟨f1, rfl⟩
  rw [fbImage]
  by_cases hc : f.image_url = ""
  · rw [if_pos hc]
    obtain ⟨u, hu⟩ := tfm "og:image" true
    rw [hu, exc_bind_ok, exc_pure_bind]
    exact htail _
  · rw [if_neg hc, exc_pure_bind]
    exact htail f

theorem fbSave_oo (drv : Driver)
    (gts : ∀ css i, ∃ s, get_text_safe drv css i = .ok s) (f : Fields) :
    (∃ g, fbSave drv f = .ok g) ∨ fbSave drv f = .error .overflow := by
  rw [fbSave]
  by_cases hc : f.save_count = ""
  · rw [if_pos hc]
    obtain ⟨t1, h1⟩ := retry_stale_ok _ (fun i => gts selSocialCount i)
    obtain ⟨t2, h2⟩ := retry_stale_ok _ (fun i => gts selSocialClasses i)
    rw [h1, exc_bind_ok, h2, exc_bind_ok]
    cases hm : firstCountMatch "save" [t1, t2, find_text_contains drv "save"] with
    | none =>
      left
      exact ⟨f, by simp only [hm]; rfl⟩
    | some g =>
      rcases parse_compact_oo g with ⟨v, hv⟩ | hv
      · left
        refine ⟨{ f with save_count := v }, ?_⟩
        simp only [hm]
        rw [hv]
        rfl
      · right
        simp only [hm]
        rw [hv]
        rfl
  · rw [if_neg hc]
    left
    exact ⟨f, rfl⟩

theorem fbComment_oo (drv : Driver)
    (gts : ∀ css i, ∃ s, get_text_safe drv css i = .ok s) (f : Fields) :
    (∃ g, fbComment drv f = .ok g) ∨ fbComment drv f = .error .overflow := by
  rw [fbComment]
  by_cases hc : f.comment_count = ""
  · rw [if_pos hc]
    obtain ⟨t1, h1⟩ := retry_stale_ok _ (fun i => gts selCommentsCount i)
    rw [h1, exc_bind_ok]
    cases hm : firstCountMatch "comment" [t1, find_text_contains drv "comment"] with
    | none =>
      left
      exact ⟨f, by simp only [hm]; rfl⟩
    | some g =>
      rcases parse_compact_oo g with ⟨v, hv⟩ | hv
      · left
        refine ⟨{ f with comment_count := v }, ?_⟩
        simp only [hm]
        rw [hv]
        rfl
      · right
        simp only [hm]
        rw [hv]
        rfl
  · rw [if_neg hc]
    left
    exact ⟨f, rfl⟩

theorem fbPinner_ok (drv : Driver) (f : Fields) : ∃ g, fbPinner drv f = .ok g := by
  rw [fbPinner]
  by_cases hc : f.pinner_username = "" ∨ f.pinner_profile_url = ""
  · rw [if_pos hc]
    cases hr : retry_stale drv.pinnerAnchors with
    | error e => exact ⟨f, rfl⟩
    | ok anchors => exact ⟨_, rfl⟩
  · rw [if_neg hc]
    exact ⟨f, rfl⟩

theorem fbBoard_ok (drv : Driver) (f : Fields) : ∃ g, fbBoard drv f = .ok g := by
  rw [fbBoard]
  by_cases hc : f.board_url = ""
  · rw [if_pos hc]
    cases hr : retry_stale drv.boardAnchors with
    | error e => exact ⟨f, rfl⟩
    | ok anchors => exact ⟨_, rfl⟩
  · rw [if_neg hc]
    exact ⟨f, rfl⟩

theorem fbOutbound_ok (drv : Driver)
    (ats : ∀ css attr i, ∃ s, attr_safe drv css attr i = .ok s) (f : Fields) :
    ∃ g, fbOutbound drv f = .ok g := by
  have htail : ∀ f1 : Fields, ∃ g,
      ((if f1.outbound_link = "" then
        match retry_stale drv.targetBlankAnchors with
        | .error _ => pure f1
        | .ok anchors => pure (targetBlankScan f1 anchors)
      else pure f1 : Except Exc Fields)) = .ok g := by
    intro f1
    by_cases hc : f1.outbound_link = ""
    · rw [if_pos hc]
      cases hr : retry_stale drv.targetBlankAnchors with
      | error e => exact ⟨f1, rfl⟩
      | ok anchors => exact ⟨_, rfl⟩
    · rw [if_neg hc]
      exact ⟨f1, rfl⟩
  rw [fbOutbound]
  by_cases hc : f.outbound_link = ""
  · rw [if_pos hc]
    obtain ⟨v, hv⟩ := retry_stale_ok _ (fun i => ats selVisitButton "href" i)
    rw [hv, exc_bind_ok, exc_pure_bind]
    exact htail _
  · rw [if_neg hc, exc_pure_bind]
    exact htail f

theorem fbCreated_ok (drv : Driver) (f : Fields) : ∃ g, fbCreated drv f = .ok g := by
  rw [fbCreated]
  by_cases hc : f.created_at = ""
  · rw [if_pos hc]
    cases hr : drv.timeDatetimes with
    | error e => exact ⟨f, rfl⟩
    | ok dts =>
      dsimp only
      cases hd : List.find? (fun s => s != "") dts with
      | none => exact ⟨f, rfl⟩
      | some dt => exact ⟨_, rfl⟩
  · rw [if_neg hc]
    exact ⟨f, rfl⟩

theorem normalizeCounts_oo (f : Fields) :
    (∃ g, normalizeCounts f = .ok g) ∨ normalizeCounts f = .error .overflow := by
  have htail : ∀ sc : String,
      (∃ g, ((if f.comment_count ≠ "" ∧ ¬ pyIsdigit f.comment_count then
          parse_compact_number f.comment_count >>= fun cc =>
            pure { f with save_count := sc, comment_count := cc }
        else pure f.comment_count >>= fun cc =>
            pure { f with save_count := sc, comment_count := cc } : Except Exc Fields)) =
        .ok g) ∨
      (((if f.comment_count ≠ "" ∧ ¬ pyIsdigit f.comment_count then
          parse_compact_number f.comment_count >>= fun cc =>
            pure { f with save_count := sc, comment_count := cc }
        else pure f.comment_count >>= fun cc =>
            pure { f with save_count := sc, comment_count := cc } : Except Exc Fields)) =
        .error .overflow) := by
    intro sc
    by_cases h2 : f.comment_count ≠ "" ∧ ¬ pyIsdigit f.comment_count
    · rw [if_pos h2]
      rcases parse_compact_oo f.comment_count with ⟨w, hw⟩ | hw
      · left
        refine ⟨{ f with save_count := sc, comment_count := w }, ?_⟩
        rw [hw, exc_bind_ok]
        rfl
      · right
        rw [hw, exc_bind_err]
    · rw [if_neg h2, exc_pure_bind]
      left
      exact ⟨_, rfl⟩
  rw [normalizeCounts]
  by_cases h1 : f.save_count ≠ "" ∧ ¬ pyIsdigit f.save_count
  · rw [if_pos h1]
    rcases parse_compact_oo f.save_count with ⟨v, hv⟩ | hv
    · rw [hv, exc_bind_ok]
      exact htail v
    · right
      rw [hv, exc_bind_err]
  · rw [if_neg h1, exc_pure_bind]
    exact htail f.save_count

/-- C2 (amended): the cascade degrades gracefully but can fail.  When
navigation succeeds, script and page-source enumeration succeed, every
element/meta/attribute probe either succeeds or fails with the caught
`NoSuchElementException`, and no JSON payload parses (so every parse
failure is indeed absorbed locally), `scrape_pin_detail` returns a
record — or raises `OverflowError` out of the unprotected
`parse_compact_number` calls.  The original claim of "cannot fail" is
false: a persistently stale element (counterexample) or an overflowing
count makes the cascade raise. -/
theorem c2_cascade_degrades_gracefully (drv : Driver) (pin_url keyword : String)
    (h1 : drv.nav pin_url = .ok ())
    (h2 : ∃ ss, drv.scripts = .ok ss)
    (h3 : ∃ html, drv.pageSource = .ok html)
    (h4 : ∀ name b, (∃ s, drv.metaContent name b = .ok s) ∨
      drv.metaContent name b = .error .noSuchElement)
    (h5 : ∀ css i, (∃ s, drv.cssText css i = .ok s) ∨
      drv.cssText css i = .error .noSuchElement)
    (h6 : ∀ css attr i, (∃ s, drv.cssAttr css attr i = .ok s) ∨
      drv.cssAttr css attr i = .error .noSuchElement)
    (hj : ∀ s, drv.jloads s = .error ()) :
    (∃ row, scrape_pin_detail drv pin_url keyword = .ok row) ∨
      scrape_pin_detail drv pin_url keyword = .error .overflow := by
  obtain ⟨ss, hss⟩ := h2
  obtain ⟨html, hhtml⟩ := h3
  have tfm := text_from_meta_ok drv h4
  have gts := get_text_safe_ok drv h5
  have ats := attr_safe_ok drv h6
  have h2c : ∀ pd, step2Cdp drv (parse_pin_id pin_url) pd = .ok pd :=
    fun pd => step2Cdp_jfail drv hj _ pd
  have h3c : ∀ pd, step3Scripts drv (parse_pin_id pin_url) pd = .ok pd :=
    fun pd => step3Scripts_jfail drv hj ss hss html hhtml _ pd
  have h5c : ∀ f, step5Closeup drv f = .ok f :=
    fun f => step5Closeup_jfail drv hj ss hss html hhtml f
  obtain ⟨f2, hf2⟩ := fbTitle_ok drv tfm gts
    (baseFields (step1InlineJson drv (parse_pin_id pin_url)))
  obtain ⟨f3, hf3⟩ := fbDesc_ok drv tfm f2
  obtain ⟨f4, hf4⟩ := fbImage_ok drv tfm f3
  rcases fbSave_oo drv gts f4 with ⟨f5, hf5⟩ | hf5
  · rcases fbComment_oo drv gts f5 with ⟨f6, hf6⟩ | hf6
    · obtain ⟨f7, hf7⟩ := fbPinner_ok drv f6
      obtain ⟨f8, hf8⟩ := fbBoard_ok drv f7
      obtain ⟨f9, hf9⟩ := fbOutbound_ok drv ats f8
      obtain ⟨f10, hf10⟩ := fbCreated_ok drv f9
      rcases normalizeCounts_oo f10 with ⟨f11, hf11⟩ | hf11
      · left
        refine ⟨assemblePinRow keyword pin_url (parse_pin_id pin_url) f11, ?_⟩
        simp only [scrape_pin_detail, h1, exc_bind_ok, h2c, h3c, h5c, hf2, hf3, hf4,
          hf5, hf6, hf7, hf8, hf9, hf10, hf11]
        rfl
      · right
        simp only [scrape_pin_detail, h1, exc_bind_ok, h2c, h3c, h5c, hf2, hf3, hf4,
          hf5, hf6, hf7, hf8, hf9, hf10, hf11, exc_bind_err]
    · right
      simp only [scrape_pin_detail, h1, exc_bind_ok, h2c, h3c, h5c, hf2, hf3, hf4,
        hf5, hf6, exc_bind_err]
  · right
    simp only [scrape_pin_detail, h1, exc_bind_ok, h2c, h3c, h5c, hf2, hf3, hf4,
      hf5, exc_bind_err]

/-- C2, witness. -/
theorem c2_cascade_degrades_gracefully_witness :
    (∃ row, scrape_pin_detail emptyDriver "https://www.pinterest.com/pin/9/" "kw" =
      .ok row) ∨
    scrape_pin_detail emptyDriver "https://www.pinterest.com/pin/9/" "kw" =
      .error .overflow :=
  c2_cascade_degrades_gracefully emptyDriver "https://www.pinterest.com/pin/9/" "kw"
    rfl ⟨[], rfl⟩ ⟨"", rfl⟩ (fun _ _ => .inr rfl) (fun _ _ => .inl ⟨"", rfl⟩)
    (fun _ _ _ => .inr rfl) (fun _ => rfl)
